import Mathlib

/-!
Verification of the Servers-Set-Change (SSC) session and its Share-Move
sub-session (`servers_set_change_session.rs`, `share_move_session.rs`).

Node identifiers, key/session identifiers and public keys are modelled as
natural numbers (`Public::default()` becomes `0`).  `BTreeMap<NodeId, V>` is
modelled as an association list `List (ℕ × V)`; `BTreeSet<NodeId>` as a
`List ℕ` without duplicates.  Fallible code returns `Except Error Unit`;
code that can panic (`expect`, `unimplemented!`) returns `Option`, with
`none` standing for the panic.
-/

/-- The error kinds of `key_server_cluster::Error` used by the two sessions. -/
inductive Error
| ReplayProtection
| InvalidMessage
| InvalidStateForRequest
| InvalidNodesConfiguration
| AccessDenied
| KeyStorage
| TooEarlyForRequest
deriving DecidableEq

deriving instance DecidableEq for Except

/-- Lookup in an association list, modelling `BTreeMap::get`. -/
def alLookup {β : Type} (k : ℕ) (l : List (ℕ × β)) : Option β :=
  (l.find? (fun p => p.1 = k)).map Prod.snd

/-- Removal of a key, modelling `BTreeMap::remove`. -/
def alRemove {β : Type} (k : ℕ) (l : List (ℕ × β)) : List (ℕ × β) :=
  l.filter (fun p => p.1 ≠ k)

/-- Insertion of a binding, modelling `BTreeMap::insert` (replaces any
previous binding for the key). -/
def alInsert {β : Type} (k : ℕ) (v : β) (l : List (ℕ × β)) : List (ℕ × β) :=
  (k, v) :: alRemove k l

/-- Key membership test, modelling `BTreeMap::contains_key`. -/
def alContains {β : Type} (k : ℕ) (l : List (ℕ × β)) : Bool :=
  (alLookup k l).isSome

theorem alLookup_cons {β : Type} (k : ℕ) (p : ℕ × β) (l : List (ℕ × β)) :
    alLookup k (p :: l) = if p.1 = k then some p.2 else alLookup k l := by
  by_cases h : p.1 = k <;> simp [alLookup, List.find?_cons, h]

theorem alLookup_alRemove {β : Type} (k k' : ℕ) (l : List (ℕ × β)) :
    alLookup k (alRemove k' l) = if k = k' then none else alLookup k l := by
  induction l with
  | nil => by_cases h : k = k' <;> simp [alLookup, alRemove, h]
  | cons p t ih =>
    simp only [alRemove, List.filter_cons] at ih ⊢
    by_cases hp : p.1 = k'
    · have hdrop : (decide (p.1 ≠ k')) = false := by simp [hp]
      rw [hdrop]
      simp only [Bool.false_eq_true, if_false]
      rw [ih, alLookup_cons]
      by_cases hk : k = k'
      · simp [hk]
      · have hpk : ¬ p.1 = k := by rw [hp]; exact fun h => hk h.symm
        simp [hk, hpk]
    · have hkeep : (decide (p.1 ≠ k')) = true := by simp [hp]
      rw [hkeep]
      simp only [if_true]
      rw [alLookup_cons, alLookup_cons, ih]
      by_cases hpk : p.1 = k
      · have hk : ¬ k = k' := fun h => hp (hpk.trans h)
        simp [hpk, hk]
      · simp [hpk]

theorem alLookup_alInsert {β : Type} (k k' : ℕ) (v : β) (l : List (ℕ × β)) :
    alLookup k (alInsert k' v l) = if k = k' then some v else alLookup k l := by
  by_cases h : k = k'
  · simp [alInsert, alLookup_cons, h]
  · rw [alInsert, alLookup_cons]
    have : ¬ k' = k := fun hh => h hh.symm
    simp only [this, if_false, if_neg h]
    rw [alLookup_alRemove]
    simp [h]

theorem alLookup_isSome_iff {β : Type} (k : ℕ) (l : List (ℕ × β)) :
    (alLookup k l).isSome ↔ k ∈ l.map Prod.fst := by
  induction l with
  | nil => simp [alLookup]
  | cons p t ih =>
    rw [alLookup_cons]
    by_cases h : p.1 = k
    · simp [h]
    · have : ¬ k = p.1 := fun hh => h hh.symm
      simp [h, ih, this]

theorem alLookup_eq_none_iff {β : Type} (k : ℕ) (l : List (ℕ × β)) :
    alLookup k l = none ↔ k ∉ l.map Prod.fst := by
  rw [← alLookup_isSome_iff]
  cases alLookup k l <;> simp

theorem alLookup_mem_of_isSome {β : Type} {k : ℕ} {l : List (ℕ × β)} {v : β}
    (h : alLookup k l = some v) : (k, v) ∈ l := by
  induction l with
  | nil => simp [alLookup] at h
  | cons p t ih =>
    rw [alLookup_cons] at h
    by_cases hp : p.1 = k
    · simp only [hp, if_true, Option.some.injEq] at h
      have : p = (k, v) := Prod.ext hp h
      rw [← this]
      exact List.mem_cons_self _ _
    · simp only [hp, if_false] at h
      exact List.mem_cons_of_mem _ (ih h)

theorem alRemove_length_lt {β : Type} {k : ℕ} {l : List (ℕ × β)}
    (h : (alLookup k l).isSome) : (alRemove k l).length < l.length := by
  rw [alLookup_isSome_iff] at h
  obtain ⟨p, hp, hk⟩ := List.exists_of_mem_map h
  exact List.length_filter_lt_length_iff_exists.mpr ⟨p, hp, by simp [hk]⟩

theorem alInsert_length_le {β : Type} (k : ℕ) (v : β) (l : List (ℕ × β)) :
    (alInsert k v l).length ≤ l.length + 1 := by
  simpa [alInsert, alRemove] using Nat.succ_le_succ (List.length_filter_le _ l)

theorem alInsert_length_le_of_mem {β : Type} {k : ℕ} {l : List (ℕ × β)} (v : β)
    (h : (alLookup k l).isSome) : (alInsert k v l).length ≤ l.length := by
  simpa [alInsert] using alRemove_length_lt (l := l) (k := k) h

namespace ShareMove

/-- `SessionMeta` from `key_server_cluster` as used by the share-move session. -/
structure SessionMeta where
  id : ℕ
  selfNodeId : ℕ
  masterNodeId : ℕ
  threshold : ℕ
deriving DecidableEq

/-- `DocumentKeyShare`: per-key state held by one node, generic over the
scalar type `σ` of id numbers and secret shares. -/
structure DocumentKeyShare (σ : Type) where
  author : ℕ
  threshold : ℕ
  idNumbers : List (ℕ × σ)
  polynom1 : List σ
  secretShare : σ
  commonPoint : Option σ
  encryptedPoint : Option σ
deriving DecidableEq

/-- The session state of `share_move_session.rs`. -/
inductive SessionState
| ConsensusEstablishing
| WaitingForMoveConfirmation
| Finished
deriving DecidableEq

/-- Modelled from the spec (§4.1): the state of the generic consensus
session, a collaborator whose implementation is outside the two source
files. -/
inductive ConsensusState
| WaitingForInit
| EstablishingConsensus
| ConsensusEstablished
| ConsensusFinished
| ConsensusFailed
deriving DecidableEq

/-- Modelled from the spec (§6): an idealized administrator signature over
the canonical ordered hash of a node set, recorded as the signer and the
sorted node list that was signed. -/
structure Sig where
  signer : ℕ
  content : List ℕ
deriving DecidableEq

/-- Insertion into a sorted list of node ids. -/
def insertSorted (a : ℕ) : List ℕ → List ℕ
| [] => [a]
| b :: t => if a ≤ b then a :: b :: t else b :: insertSorted a t

/-- Ascending insertion sort of node ids. -/
def sortNodes (l : List ℕ) : List ℕ := l.foldr insertSorted []

/-- Modelled from the spec (§6): `ordered_nodes_hash` hashes the node ids in
ascending order; modelled as the sorted deduplicated list itself. -/
def orderedNodesHash (nodes : List ℕ) : List ℕ :=
  sortNodes nodes.dedup

/-- Modelled from the spec (§4.2): signature verification for the access
job. -/
def verifySig (pub : ℕ) (sig : Sig) (nodes : List ℕ) : Bool :=
  sig.signer = pub && sig.content = orderedNodesHash nodes

/-- Modelled from the spec (§4.1, §4.2): the data of the consensus session a
share-move or SSC session holds, keeping the arguments its constructor was
called with.  `adminPublic` is the public key handed to
`ServersSetChangeAccessJob::new_on_master` / `new_on_slave`. -/
structure ConsensusModel where
  adminPublic : ℕ
  currentNodesSet : List ℕ
  newNodesSet : Option (List ℕ)
  sigOld : Option Sig
  sigNew : Option Sig
  state : ConsensusState
  unconfirmed : List ℕ
  collectedUnknown : List (ℕ × List ℕ)
deriving DecidableEq

/-- Immutable share-move session data (`SessionCore`); the transport and the
key-storage handle are modelled outside (sent messages and the storage map are
returned by the handlers). -/
structure SessionCore (σ : Type) where
  meta : SessionMeta
  subSession : ℕ
  nonce : ℕ
  keyShare : Option (DocumentKeyShare σ)
deriving DecidableEq

/-- Mutable share-move session data (`SessionData`). -/
structure SessionData (σ : Type) where
  state : SessionState
  consensusSession : Option ConsensusModel
  sharesToMove : Option (List (ℕ × ℕ))
  moveConfirmationsToReceive : Option (List ℕ)
  receivedKeyShare : Option (DocumentKeyShare σ)
deriving DecidableEq

/-- The initial mutable data produced by `SessionImpl::new`. -/
def SessionData.init (σ : Type) : SessionData σ :=
  { state := SessionState.ConsensusEstablishing
    consensusSession := none
    sharesToMove := none
    moveConfirmationsToReceive := none
    receivedKeyShare := none }

/-- One `KeyStorage` operation performed by the session. -/
inductive StorageAction (σ : Type)
| insert (keyId : ℕ) (share : DocumentKeyShare σ)
| update (keyId : ℕ) (share : DocumentKeyShare σ)
| remove (keyId : ℕ)
deriving DecidableEq

/-- The external world of a share-move session: the persistent key storage
and the log of operations applied to it. -/
structure World (σ : Type) where
  storage : List (ℕ × DocumentKeyShare σ)
  log : List (StorageAction σ)
deriving DecidableEq

/-- `KeyStorage::insert`. -/
def World.insert {σ : Type} (keyId : ℕ) (sh : DocumentKeyShare σ) (w : World σ) : World σ :=
  { storage := alInsert keyId sh w.storage, log := w.log ++ [StorageAction.insert keyId sh] }

/-- `KeyStorage::update`. -/
def World.update {σ : Type} (keyId : ℕ) (sh : DocumentKeyShare σ) (w : World σ) : World σ :=
  { storage := alInsert keyId sh w.storage, log := w.log ++ [StorageAction.update keyId sh] }

/-- `KeyStorage::remove`. -/
def World.remove {σ : Type} (keyId : ℕ) (w : World σ) : World σ :=
  { storage := alRemove keyId w.storage, log := w.log ++ [StorageAction.remove keyId] }

/-- `check_shares_to_move` (share_move_session.rs lines 653-685): validates a
`shares_to_move` map (keys are move targets, values are move sources) against
the optional current `id_numbers` of this node's key share. -/
def checkSharesToMove {σ : Type} (selfNodeId : ℕ) (sharesToMove : List (ℕ × ℕ))
    (idNumbers : Option (List (ℕ × σ))) : Except Error Unit :=
  if sharesToMove.isEmpty then Except.error Error.InvalidMessage
  else
    match idNumbers with
    | some idn =>
      if sharesToMove.any (fun p => !alContains p.2 idn) then
        Except.error Error.InvalidNodesConfiguration
      else if sharesToMove.any (fun p => alContains p.1 idn) then
        Except.error Error.InvalidNodesConfiguration
      else if (sharesToMove.map Prod.snd).dedup.length ≠ sharesToMove.length then
        Except.error Error.InvalidNodesConfiguration
      else Except.ok ()
    | none =>
      if sharesToMove.any (fun p => p.2 = selfNodeId) then
        Except.error Error.InvalidMessage
      else if !sharesToMove.any (fun p => p.1 = selfNodeId) then
        Except.error Error.InvalidMessage
      else if (sharesToMove.map Prod.snd).dedup.length ≠ sharesToMove.length then
        Except.error Error.InvalidNodesConfiguration
      else Except.ok ()

/-- The `id_numbers` rewrite of `complete_session` (lines 582-586): for every
`(target, source)` entry of `shares_to_move`, remove the source's binding and
re-insert its id number under the target.  `none` models the panic of the
`expect` when a source has no binding. -/
def moveIdNumbers {σ : Type} : List (ℕ × ℕ) → List (ℕ × σ) → Option (List (ℕ × σ))
| [], idn => some idn
| (target, source) :: rest, idn =>
  match alLookup source idn with
  | none => none
  | some idNumber => moveIdNumbers rest (alInsert target idNumber (alRemove source idn))

end ShareMove

namespace ShareMove

/-- The consensus payload of `ShareMoveConsensusMessage`
(`ConsensusMessageWithServersMap`): the initialization request carries the old
nodes set and the old-to-new node map. -/
inductive ConsensusPayload
| initializeConsensusSession (oldNodesSet : List ℕ) (newNodesSet : List (ℕ × ℕ))
    (sigOld sigNew : Sig)
| confirmConsensusInitialization (isConfirmed : Bool)
deriving DecidableEq

/-- The wire messages of `ShareMoveMessage`. -/
inductive Msg (σ : Type)
| consensus (sessionId subSession sessionNonce : ℕ) (payload : ConsensusPayload)
| shareMoveRequest (sessionId subSession sessionNonce : ℕ)
| shareMove (sessionId subSession sessionNonce : ℕ) (share : DocumentKeyShare σ)
| shareMoveConfirm (sessionId subSession sessionNonce : ℕ)
| shareMoveError (sessionId subSession sessionNonce : ℕ) (errorText : ℕ)

/-- `Message::session_nonce()`. -/
def Msg.sessionNonce {σ : Type} : Msg σ → ℕ
| Msg.consensus _ _ n _ => n
| Msg.shareMoveRequest _ _ n => n
| Msg.shareMove _ _ n _ => n
| Msg.shareMoveConfirm _ _ n => n
| Msg.shareMoveError _ _ n _ => n

/-- `move_share` (lines 550-565): send this node's full key share payload to
the designated destination.  `none` models the panic of the `expect` when the
node has no key share. -/
def moveShare {σ : Type} (core : SessionCore σ) (shareDestination : ℕ) :
    Option (List (ℕ × Msg σ)) :=
  match core.keyShare with
  | none => none
  | some ks =>
    some [(shareDestination, Msg.shareMove core.meta.id core.subSession core.nonce ks)]

/-- `disseminate_share_move_requests` (lines 536-547). -/
def disseminateShareMoveRequests {σ : Type} (core : SessionCore σ) (data : SessionData σ) :
    Option (List (ℕ × Msg σ)) :=
  match data.sharesToMove with
  | none => none
  | some stm =>
    some (((stm.map Prod.snd).filter (fun n => n ≠ core.meta.selfNodeId)).map
      (fun src => (src, Msg.shareMoveRequest core.meta.id core.subSession core.nonce)))

/-- `complete_session` (lines 568-594). -/
def completeSession {σ : Type} (core : SessionCore σ) (data : SessionData σ) (w : World σ) :
    Option (Except Error Unit × SessionData σ × World σ) :=
  match data.sharesToMove with
  | none => none
  | some stm =>
    if stm.any (fun p => p.2 = core.meta.selfNodeId) then
      some (Except.ok (), data, World.remove core.meta.id w)
    else
      let isOldNode := data.receivedKeyShare.isNone
      match (match data.receivedKeyShare with
             | some rk => some rk
             | none => core.keyShare) with
      | none => none
      | some ks =>
        match moveIdNumbers stm ks.idNumbers with
        | none => none
        | some idn =>
          let ks := { ks with idNumbers := idn }
          let data := { data with receivedKeyShare := none }
          if isOldNode then some (Except.ok (), data, World.update core.meta.id ks w)
          else some (Except.ok (), data, World.insert core.meta.id ks w)

/-- `on_consensus_established` (lines 514-533). -/
def onConsensusEstablished {σ : Type} (core : SessionCore σ) (data : SessionData σ) :
    Option (Except Error Unit × SessionData σ × List (ℕ × Msg σ)) :=
  let data := { data with state := SessionState.WaitingForMoveConfirmation }
  match (if core.meta.selfNodeId = core.meta.masterNodeId then
           disseminateShareMoveRequests core data
         else some []) with
  | none => none
  | some sentReq =>
    match data.sharesToMove with
    | none => none
    | some stm =>
      match (match (stm.find? (fun p => p.2 = core.meta.selfNodeId)).map Prod.fst with
             | some dest => moveShare core dest
             | none => some []) with
      | none => none
      | some sentMove =>
        some (Except.ok (),
          { data with moveConfirmationsToReceive := some (stm.map Prod.fst) },
          sentReq ++ sentMove)

/-- The state adjustment shared by the share-move message handlers (for
example lines 402-408): an early `ConsensusEstablishing` state is bumped to
`WaitingForMoveConfirmation`; any state other than those two is rejected. -/
def adjustToWaiting {σ : Type} (data : SessionData σ) : Except Error (SessionData σ) :=
  if data.state = SessionState.ConsensusEstablishing then
    Except.ok { data with state := SessionState.WaitingForMoveConfirmation }
  else if data.state ≠ SessionState.WaitingForMoveConfirmation then
    Except.error Error.InvalidStateForRequest
  else Except.ok data

/-- `on_share_move_request` (lines 391-417). -/
def onShareMoveRequest {σ : Type} (core : SessionCore σ) (data : SessionData σ) (sender : ℕ) :
    Option (Except Error Unit × SessionData σ × List (ℕ × Msg σ)) :=
  if sender ≠ core.meta.masterNodeId then some (Except.error Error.InvalidMessage, data, [])
  else
    match adjustToWaiting data with
    | Except.error e => some (Except.error e, data, [])
    | Except.ok data =>
      match data.sharesToMove with
      | none => none
      | some stm =>
        match (stm.find? (fun p => p.2 = core.meta.selfNodeId)).map Prod.fst with
        | some dest =>
          match moveShare core dest with
          | none => none
          | some sent => some (Except.ok (), data, sent)
        | none => some (Except.error Error.InvalidMessage, data, [])

/-- `on_share_move` (lines 420-471). -/
def onShareMove {σ : Type} (core : SessionCore σ) (data : SessionData σ) (w : World σ)
    (sender : ℕ) (share : DocumentKeyShare σ) :
    Option (Except Error Unit × SessionData σ × World σ × List (ℕ × Msg σ)) :=
  match adjustToWaiting data with
  | Except.error e => some (Except.error e, data, w, [])
  | Except.ok data =>
    match data.sharesToMove with
    | none => none
    | some stm =>
      if alLookup core.meta.selfNodeId stm ≠ some sender then
        some (Except.error Error.InvalidMessage, data, w, [])
      else
        match data.moveConfirmationsToReceive with
        | none => none
        | some confs =>
          let confs := confs.erase core.meta.selfNodeId
          let data := { data with
            moveConfirmationsToReceive := some confs
            receivedKeyShare := some share }
          let allNodesSet := (stm.map Prod.fst ++ share.idNumbers.map Prod.fst).dedup
          let sent := ((allNodesSet.filter (fun n => n ≠ core.meta.selfNodeId)).map
            (fun n => (n, Msg.shareMoveConfirm core.meta.id core.subSession core.nonce)))
          if confs.isEmpty then
            match completeSession core data w with
            | none => none
            | some (r, data, w) => some (r, data, w, sent)
          else some (Except.ok (), data, w, sent)

/-- `on_share_move_confirmation` (lines 474-500). -/
def onShareMoveConfirmation {σ : Type} (core : SessionCore σ) (data : SessionData σ)
    (w : World σ) (sender : ℕ) :
    Option (Except Error Unit × SessionData σ × World σ × List (ℕ × Msg σ)) :=
  match adjustToWaiting data with
  | Except.error e => some (Except.error e, data, w, [])
  | Except.ok data =>
    match data.moveConfirmationsToReceive with
    | none => none
    | some confs =>
      if ¬ confs.contains sender then
        some (Except.error Error.InvalidMessage, data, w, [])
      else
        let confs := confs.erase sender
        let data := { data with moveConfirmationsToReceive := some confs }
        if ¬ confs.isEmpty then some (Except.ok (), data, w, [])
        else
          match completeSession core data w with
          | none => none
          | some (r, data, w) => some (r, data, w, [])

/-- `on_session_error` (lines 503-511): log a warning and move to
`Finished`. -/
def onSessionError {σ : Type} (core : SessionCore σ) (data : SessionData σ) (w : World σ)
    (sender : ℕ) (errorText : ℕ) :
    Option (Except Error Unit × SessionData σ × World σ × List (ℕ × Msg σ)) :=
  some (Except.ok (), { data with state := SessionState.Finished }, w, [])

/-- `set_consensus_output` (lines 148-163). -/
def setConsensusOutput {σ : Type} (core : SessionCore σ) (data : SessionData σ)
    (sharesToMove : List (ℕ × ℕ)) : Except Error (SessionData σ) :=
  if data.state ≠ SessionState.ConsensusEstablishing ∨ data.consensusSession.isSome then
    Except.error Error.InvalidStateForRequest
  else
    match checkSharesToMove core.meta.selfNodeId sharesToMove
        (core.keyShare.map DocumentKeyShare.idNumbers) with
    | Except.error e => Except.error e
    | Except.ok _ =>
      Except.ok { data with
        moveConfirmationsToReceive := some (sharesToMove.map Prod.fst)
        sharesToMove := some sharesToMove }

/-- `initialize` (lines 166-213): master-only entry point (renamed because
`initialize` is a Lean keyword). -/
def initializeShareMove {σ : Type} (core : SessionCore σ) (data : SessionData σ)
    (sharesToMove : List (ℕ × ℕ)) (oldSetSignature newSetSignature : Option Sig) :
    Option (Except Error Unit × SessionData σ × List (ℕ × Msg σ)) :=
  if data.state ≠ SessionState.ConsensusEstablishing ∨ data.consensusSession.isSome then
    some (Except.error Error.InvalidStateForRequest, data, [])
  else if data.sharesToMove.isSome then
    onConsensusEstablished core data
  else
    match core.keyShare with
    | none => some (Except.error Error.KeyStorage, data, [])
    | some ks =>
      match checkSharesToMove core.meta.selfNodeId sharesToMove (some ks.idNumbers) with
      | Except.error e => some (Except.error e, data, [])
      | Except.ok _ =>
        match oldSetSignature, newSetSignature with
        | some so, some sn =>
          let oldKeys := ks.idNumbers.map Prod.fst
          let newNodesSet :=
            ((oldKeys.filter (fun n => ¬ sharesToMove.any (fun p => p.2 = n))) ++
              sharesToMove.map Prod.fst).dedup
          let allNodesSet := (oldKeys ++ sharesToMove.map Prod.fst).dedup
          let cm : ConsensusModel :=
            { adminPublic := 0
              currentNodesSet := oldKeys
              newNodesSet := some newNodesSet
              sigOld := some so
              sigNew := some sn
              state := ConsensusState.EstablishingConsensus
              unconfirmed := allNodesSet.filter (fun n => n ≠ core.meta.selfNodeId)
              collectedUnknown := [] }
          let wireNew := newNodesSet.map (fun n => (n, (alLookup n sharesToMove).getD n))
          let sent := (allNodesSet.filter (fun n => n ≠ core.meta.selfNodeId)).map
            (fun n => (n, Msg.consensus core.meta.id core.subSession core.nonce
              (ConsensusPayload.initializeConsensusSession oldKeys wireNew so sn)))
          some (Except.ok (),
            { data with
                consensusSession := some cm
                moveConfirmationsToReceive := some (sharesToMove.map Prod.fst)
                sharesToMove := some sharesToMove },
            sent)
        | _, _ => some (Except.error Error.InvalidMessage, data, [])

/-- Modelled from the spec (§4.2): the access check run by a slave handling a
consensus initialization request — both signatures must verify as the admin
public key over the ordered hashes of the old and new sets, and the locally
observed node set must agree with the request. -/
def accessCheck (adminPublic : ℕ) (localNodes reqOld reqNew : List ℕ)
    (sigOld sigNew : Sig) : Bool :=
  verifySig adminPublic sigOld reqOld && verifySig adminPublic sigNew reqNew &&
    (orderedNodesHash localNodes == orderedNodesHash (reqOld ++ reqNew))

/-- `on_consensus_message` (lines 236-296).  The internal consensus-session
calls (`on_consensus_partial_request/response`) are collaborators outside the
source files; they are modelled from the spec (§4.1): a slave answers a
request with the access-check verdict, the master tallies confirmations until
every other participant has answered. -/
def onConsensusMessage {σ : Type} (core : SessionCore σ) (data : SessionData σ)
    (sender : ℕ) (payload : ConsensusPayload) :
    Option (Except Error Unit × SessionData σ × List (ℕ × Msg σ)) :=
  let isMaster := core.meta.selfNodeId = core.meta.masterNodeId
  let lazyCreated : Except Error (SessionData σ) :=
    if ¬ isMaster ∧ data.consensusSession = none then
      match payload with
      | ConsensusPayload.initializeConsensusSession oldSet _ _ _ =>
        let currentNodesSet := match core.keyShare with
          | some ks => ks.idNumbers.map Prod.fst
          | none => oldSet
        let cs : ConsensusModel :=
          { adminPublic := 0
            currentNodesSet := currentNodesSet
            newNodesSet := none
            sigOld := none
            sigNew := none
            state := ConsensusState.WaitingForInit
            unconfirmed := []
            collectedUnknown := [] }
        Except.ok { data with consensusSession := some cs }
      | _ => Except.error Error.InvalidStateForRequest
    else Except.ok data
  match lazyCreated with
  | Except.error e => some (Except.error e, data, [])
  | Except.ok data =>
    match data.consensusSession with
    | none => some (Except.error Error.InvalidMessage, data, [])
    | some cs =>
      let isEstablishingConsensus := cs.state = ConsensusState.EstablishingConsensus
      let stepped : Except Error (ConsensusModel × List (ℕ × Msg σ) × Option (List (ℕ × ℕ))) :=
        match payload with
        | ConsensusPayload.initializeConsensusSession oldSet newMap so sn =>
          if cs.state ≠ ConsensusState.WaitingForInit then
            Except.error Error.InvalidStateForRequest
          else
            let granted := accessCheck cs.adminPublic cs.currentNodesSet oldSet
              (newMap.map Prod.snd) so sn
            if granted then
              Except.ok ({ cs with state := ConsensusState.ConsensusEstablished },
                [(sender, Msg.consensus core.meta.id core.subSession core.nonce
                  (ConsensusPayload.confirmConsensusInitialization true))],
                some (newMap.filter (fun p => p.1 ≠ p.2)))
            else Except.error Error.AccessDenied
        | ConsensusPayload.confirmConsensusInitialization isConfirmed =>
          if ¬ cs.unconfirmed.contains sender then Except.error Error.InvalidMessage
          else if ¬ isConfirmed then Except.error Error.AccessDenied
          else
            let remaining := cs.unconfirmed.erase sender
            Except.ok ({ cs with
              unconfirmed := remaining
              state := if remaining.isEmpty then ConsensusState.ConsensusEstablished
                       else cs.state }, [], none)
      match stepped with
      | Except.error e => some (Except.error e, data, [])
      | Except.ok (cs, sent, extracted) =>
        let data := { data with consensusSession := some cs }
        let data := match extracted with
          | some stm => { data with
              moveConfirmationsToReceive := some (stm.map Prod.fst)
              sharesToMove := some stm }
          | none => data
        let isConsensusEstablished := cs.state = ConsensusState.ConsensusEstablished
        if ¬ isMaster ∨ ¬ isEstablishingConsensus ∨ ¬ isConsensusEstablished then
          some (Except.ok (), data, sent)
        else
          match onConsensusEstablished core data with
          | none => none
          | some (r, data, sent2) => some (r, data, sent ++ sent2)

/-- `process_message` (lines 216-233): replay protection by the session
nonce, then dispatch on the message type. -/
def processMessage {σ : Type} (core : SessionCore σ) (data : SessionData σ) (w : World σ)
    (sender : ℕ) (msg : Msg σ) :
    Option (Except Error Unit × SessionData σ × World σ × List (ℕ × Msg σ)) :=
  if core.nonce ≠ msg.sessionNonce then
    some (Except.error Error.ReplayProtection, data, w, [])
  else
    match msg with
    | Msg.consensus _ _ _ payload =>
      (onConsensusMessage core data sender payload).map (fun r => (r.1, r.2.1, w, r.2.2))
    | Msg.shareMoveRequest _ _ _ =>
      (onShareMoveRequest core data sender).map (fun r => (r.1, r.2.1, w, r.2.2))
    | Msg.shareMove _ _ _ share => onShareMove core data w sender share
    | Msg.shareMoveConfirm _ _ _ => onShareMoveConfirmation core data w sender
    | Msg.shareMoveError _ _ _ e => onSessionError core data w sender e

end ShareMove

namespace SSC

/-- `MAX_ACTIVE_SESSIONS` (servers_set_change_session.rs line 49). -/
def MAX_ACTIVE_SESSIONS : ℕ := 64

/-- `ShareChangeSessionMeta`: the servers-set-change session meta. -/
structure Meta where
  id : ℕ
  selfNodeId : ℕ
  masterNodeId : ℕ
deriving DecidableEq

/-- The SSC session state. -/
inductive SessionState
| GatheringUnknownSessions
| Finished
deriving DecidableEq

/-- Modelled from the spec (§4.4): one entry of the sessions queue — a key id
together with the nodes holding a share of it, `known` when read from the
local key storage and `unknown` when projected from the aggregation. -/
inductive QueuedSession
| known (keyId : ℕ) (nodes : List ℕ)
| unknown (keyId : ℕ) (nodes : List ℕ)
deriving DecidableEq

/-- `QueuedSession::id()`. -/
def QueuedSession.sid : QueuedSession → ℕ
| QueuedSession.known k _ => k
| QueuedSession.unknown k _ => k

/-- `QueuedSession::nodes()`. -/
def QueuedSession.nodes : QueuedSession → List ℕ
| QueuedSession.known _ ns => ns
| QueuedSession.unknown _ ns => ns

/-- `ShareChangeSessionPlan`: the per-key migration plan.  `nodesToAdd` keeps
only the node ids (the generated id numbers attached to them play no role
here); `nodesToMove` maps each move target to its source. -/
structure Plan where
  nodesToAdd : List ℕ
  nodesToMove : List (ℕ × ℕ)
  nodesToRemove : List ℕ
deriving DecidableEq

/-- Modelled from the spec (§4.5): `prepare_share_change_session_plan` — pair
the add candidates (`NEW \ OLD`) with the remove candidates (`OLD \ NEW`)
greedily into moves, the leftovers becoming plain additions or removals. -/
def prepareShareChangeSessionPlan (oldSet newSet : List ℕ) : Plan :=
  let addCandidates := newSet.filter (fun n => ¬ oldSet.contains n)
  let removeCandidates := oldSet.filter (fun n => ¬ newSet.contains n)
  let paired := min addCandidates.length removeCandidates.length
  { nodesToAdd := addCandidates.drop paired
    nodesToMove := addCandidates.zip removeCandidates
    nodesToRemove := removeCandidates.drop paired }

/-- Modelled from the spec (§3, §4.7): the per-key `ShareChangeSession`
object as far as the driver observes it — its designated master and whether
`initialize` has been called on it.  Its internal protocol lives outside the
source files. -/
structure ShareChangeSessionStub where
  masterNodeId : ℕ
  initialized : Bool
deriving DecidableEq

/-- `SessionInitializationData` (lines 124-129). -/
structure SessionInitializationData where
  master : ℕ
  confirmations : List ℕ
deriving DecidableEq

/-- Immutable SSC session data (`SessionCore`); cluster and key storage are
collaborators, the locally known keys (with the nodes holding them) stand for
the key-storage inventory. -/
structure Core where
  meta : Meta
  nonce : ℕ
  allNodesSet : List ℕ
  adminPublic : ℕ
  localKeys : List (ℕ × List ℕ)
deriving DecidableEq

/-- Mutable SSC session data (`SessionData`, lines 104-121). -/
structure Data where
  state : SessionState
  consensusSession : Option ShareMove.ConsensusModel
  newNodesSet : Option (List ℕ)
  sessionsQueue : Option (List QueuedSession)
  sessionsInitializationState : List (ℕ × SessionInitializationData)
  delegatedSessions : List (ℕ × ℕ)
  activeSessions : List (ℕ × ShareChangeSessionStub)
  result : Option (Except Error Unit)
deriving DecidableEq

/-- The initial mutable data produced by `SessionImpl::new` (lines 187-196). -/
def Data.init : Data :=
  { state := SessionState.GatheringUnknownSessions
    consensusSession := none
    newNodesSet := none
    sessionsQueue := none
    sessionsInitializationState := []
    delegatedSessions := []
    activeSessions := []
    result := none }

/-- The consensus payload of `ServersSetChangeConsensusMessage`
(`ConsensusMessageWithServersSet`). -/
inductive ConsensusPayloadSet
| initializeConsensusSession (oldNodesSet newNodesSet : List ℕ)
    (sigOld sigNew : ShareMove.Sig)
| confirmConsensusInitialization (isConfirmed : Bool)
deriving DecidableEq

/-- The wire messages of `ServersSetChangeMessage`.  The Share-Add / Move /
Remove envelopes carry, next to the inner session id, the outcome the
embedded sub-session handler reports (a collaborator outside the source
files): its result and whether the sub-session is finished afterwards. -/
inductive Msg
| consensus (sessionNonce : ℕ) (payload : ConsensusPayloadSet)
| unknownSessionsRequest (sessionNonce : ℕ)
| unknownSessions (sessionNonce : ℕ) (unknownSessions : List ℕ)
| initShareChangeSession (sessionNonce keyId masterNodeId : ℕ)
    (oldSharesSet : List ℕ) (plan : Plan)
| confirmShareChangeSessionInitialization (sessionNonce keyId : ℕ)
| delegate (sessionNonce keyId : ℕ)
| delegateResponse (sessionNonce keyId : ℕ)
| shareAddMessage (sessionNonce keyId : ℕ) (innerError : Option Error) (finishes : Bool)
| shareMoveMessage (sessionNonce keyId : ℕ) (innerError : Option Error) (finishes : Bool)
| shareRemoveMessage (sessionNonce keyId : ℕ) (innerError : Option Error) (finishes : Bool)
| error (sessionNonce : ℕ) (errorText : ℕ)
| completed (sessionNonce : ℕ)
deriving DecidableEq

/-- `Message::session_nonce()`. -/
def Msg.sessionNonce : Msg → ℕ
| Msg.consensus n _ => n
| Msg.unknownSessionsRequest n => n
| Msg.unknownSessions n _ => n
| Msg.initShareChangeSession n _ _ _ _ => n
| Msg.confirmShareChangeSessionInitialization n _ => n
| Msg.delegate n _ => n
| Msg.delegateResponse n _ => n
| Msg.shareAddMessage n _ _ _ => n
| Msg.shareMoveMessage n _ _ _ => n
| Msg.shareRemoveMessage n _ _ _ => n
| Msg.error n _ => n
| Msg.completed n => n

/-- An outgoing transmission of the SSC session. -/
inductive Out
| send (dest : ℕ) (msg : Msg)
| broadcast (msg : Msg)
deriving DecidableEq

/-- The scheduling body run for one queued session inside the loop of
`disseminate_session_initialization_requests` (lines 572-635). -/
def scheduleOne (core : Core) (newSet : List ℕ) (q : QueuedSession) (d : Data) :
    Option (Data × List Out) :=
  match (match q with
         | QueuedSession.known _ _ => some core.meta.selfNodeId
         | QueuedSession.unknown _ nodes => nodes.head?) with
  | none => none
  | some sessionMaster =>
    let oldNodesSet := q.nodes
    let sessionId := q.sid
    let plan := prepareShareChangeSessionPlan oldNodesSet newSet
    let confirmationsAll :=
      (oldNodesSet ++ plan.nodesToAdd ++ plan.nodesToMove.map Prod.fst).dedup
    let needCreateSession := confirmationsAll.contains core.meta.selfNodeId
    let confirmations := confirmationsAll.erase core.meta.selfNodeId
    let sent := confirmations.map (fun n =>
      Out.send n (Msg.initShareChangeSession core.nonce sessionId sessionMaster oldNodesSet plan))
    let freshStub : ShareChangeSessionStub :=
      { masterNodeId := sessionMaster, initialized := false }
    let initData : SessionInitializationData :=
      { master := sessionMaster, confirmations := confirmations }
    let d := if needCreateSession then
        { d with activeSessions := alInsert sessionId freshStub d.activeSessions }
      else d
    let pending := alInsert sessionId initData d.sessionsInitializationState
    let d := { d with sessionsInitializationState := pending }
    if confirmations.isEmpty then
      match alLookup sessionId d.activeSessions with
      | none => none
      | some stub =>
        let stub := { stub with initialized := true }
        some ({ d with activeSessions := alInsert sessionId stub d.activeSessions }, sent)
    else some (d, sent)

/-- The `while number_of_sessions_to_start > 0` loop of
`disseminate_session_initialization_requests` (lines 572-636), with the
remaining budget as fuel; returns the final data, the messages sent and the
part of the queue left unconsumed. -/
def disseminateLoop (core : Core) (newSet : List ℕ) :
    ℕ → List QueuedSession → Data → List Out →
    Option (Data × List Out × List QueuedSession)
| 0, queue, d, outs => some (d, outs, queue)
| _ + 1, [], d, outs => some (d, outs, [])
| n + 1, q :: queue, d, outs =>
  match scheduleOne core newSet q d with
  | none => none
  | some (d, sent) => disseminateLoop core newSet n queue d (outs ++ sent)

/-- `disseminate_session_initialization_requests` (lines 568-643).  Note that
when the queue is drained the loop just breaks: the completion call is
commented out in the source (lines 639-642). -/
def disseminate (core : Core) (d : Data) : Option (Except Error Unit × Data × List Out) :=
  match d.sessionsQueue with
  | none => some (Except.ok (), d, [])
  | some queue =>
    match d.newNodesSet with
    | none => none
    | some newSet =>
      let number := MAX_ACTIVE_SESSIONS -
        (d.activeSessions.length + d.delegatedSessions.length)
      match disseminateLoop core newSet number queue d [] with
      | none => none
      | some (d, outs, rest) =>
        some (Except.ok (), { d with sessionsQueue := some rest }, outs)

/-- `complete_session` (lines 657-668): broadcast
`ServersSetChangeCompleted`, record `result = Ok` and wake the waiters (the
condition variable is the `result` field becoming `some`). -/
def completeSession (core : Core) (d : Data) : Except Error Unit × Data × List Out :=
  (Except.ok (), { d with result := some (Except.ok ()) },
   [Out.broadcast (Msg.completed core.nonce)])

/-- `initialize` (lines 201-226): construct the master consensus session —
the access job is built with `Public::default()` (the `0` key), see the
`TODO: admin key instead of default` on line 207 — and broadcast the
initialization request (renamed because `initialize` is a Lean keyword). -/
def initializeServersSetChange (core : Core) (d : Data) (newNodesSet : List ℕ)
    (allSetSignature newSetSignature : ShareMove.Sig) :
    Option (Except Error Unit × Data × List Out) :=
  let cs : ShareMove.ConsensusModel :=
    { adminPublic := 0
      currentNodesSet := core.allNodesSet
      newNodesSet := some newNodesSet
      sigOld := some allSetSignature
      sigNew := some newSetSignature
      state := ShareMove.ConsensusState.EstablishingConsensus
      unconfirmed := core.allNodesSet.filter (fun n => n ≠ core.meta.selfNodeId)
      collectedUnknown := [] }
  let sent := (core.allNodesSet.filter (fun n => n ≠ core.meta.selfNodeId)).map
    (fun n => Out.send n (Msg.consensus core.nonce
      (ConsensusPayloadSet.initializeConsensusSession core.allNodesSet newNodesSet
        allSetSignature newSetSignature)))
  some (Except.ok (),
    { d with consensusSession := some cs, newNodesSet := some newNodesSet }, sent)

/-- `on_consensus_message` (lines 263-307).  The embedded consensus-session
calls are collaborators outside the source files, modelled from the spec
(§4.1, §4.2); the slave's access job is created with `Public::default()`
(line 274, `TODO: administrator public`). -/
def onConsensusMessage (core : Core) (d : Data) (sender : ℕ)
    (payload : ConsensusPayloadSet) : Option (Except Error Unit × Data × List Out) :=
  let isMaster := core.meta.selfNodeId = core.meta.masterNodeId
  let lazyCreated : Except Error Data :=
    if ¬ isMaster ∧ d.consensusSession = none then
      match payload with
      | ConsensusPayloadSet.initializeConsensusSession _ _ _ _ =>
        let cs : ShareMove.ConsensusModel :=
          { adminPublic := 0
            currentNodesSet := core.allNodesSet
            newNodesSet := none
            sigOld := none
            sigNew := none
            state := ShareMove.ConsensusState.WaitingForInit
            unconfirmed := []
            collectedUnknown := [] }
        Except.ok { d with consensusSession := some cs }
      | _ => Except.error Error.InvalidStateForRequest
    else Except.ok d
  match lazyCreated with
  | Except.error e => some (Except.error e, d, [])
  | Except.ok d =>
    match d.consensusSession with
    | none => some (Except.error Error.InvalidMessage, d, [])
    | some cs =>
      let isEstablishing := cs.state = ShareMove.ConsensusState.EstablishingConsensus
      let stepped : Except Error (ShareMove.ConsensusModel × List Out) :=
        match payload with
        | ConsensusPayloadSet.initializeConsensusSession oldSet newSet so sn =>
          if cs.state ≠ ShareMove.ConsensusState.WaitingForInit then
            Except.error Error.InvalidStateForRequest
          else if ShareMove.accessCheck cs.adminPublic cs.currentNodesSet oldSet newSet
              so sn then
            Except.ok ({ cs with state := ShareMove.ConsensusState.ConsensusEstablished
                                 newNodesSet := some newSet },
              [Out.send sender (Msg.consensus core.nonce
                (ConsensusPayloadSet.confirmConsensusInitialization true))])
          else Except.error Error.AccessDenied
        | ConsensusPayloadSet.confirmConsensusInitialization isConfirmed =>
          if ¬ cs.unconfirmed.contains sender then Except.error Error.InvalidMessage
          else if ¬ isConfirmed then Except.error Error.AccessDenied
          else
            let remaining := cs.unconfirmed.erase sender
            Except.ok ({ cs with
              unconfirmed := remaining
              state := if remaining.isEmpty then
                  ShareMove.ConsensusState.ConsensusEstablished
                else cs.state }, [])
      match stepped with
      | Except.error e => some (Except.error e, d, [])
      | Except.ok (cs, sent) =>
        let established := cs.state = ShareMove.ConsensusState.ConsensusEstablished
        let cs := if isMaster ∧ isEstablishing ∧ established then
            { cs with unconfirmed :=
                core.allNodesSet.filter (fun n => n ≠ core.meta.selfNodeId) }
          else cs
        let d := { d with consensusSession := some cs }
        if ¬ isMaster ∨ ¬ isEstablishing ∨ ¬ established then
          some (Except.ok (), d, sent)
        else
          let requests := (core.allNodesSet.filter (fun n => n ≠ core.meta.selfNodeId)).map
            (fun n => Out.send n (Msg.unknownSessionsRequest core.nonce))
          some (Except.ok (), d, sent ++ requests)

/-- `on_unknown_sessions_requested` (lines 310-320): a slave answers with its
local key inventory (the unknown-sessions job is a collaborator outside the
source files, modelled from the spec §4.3). -/
def onUnknownSessionsRequested (core : Core) (d : Data) (sender : ℕ) :
    Option (Except Error Unit × Data × List Out) :=
  match d.consensusSession with
  | none => some (Except.error Error.InvalidMessage, d, [])
  | some _ =>
    some (Except.ok (), d,
      [Out.send sender (Msg.unknownSessions core.nonce (core.localKeys.map Prod.fst))])

/-- `on_unknown_sessions` (lines 323-349): the master tallies inventory
responses; once all have reported it freezes the new nodes set, materializes
the sessions queue (spec §4.4: `known` entries from local storage followed by
`unknown` entries from the aggregation) and runs the scheduling loop. -/
def onUnknownSessions (core : Core) (d : Data) (sender : ℕ) (sessions : List ℕ) :
    Option (Except Error Unit × Data × List Out) :=
  match d.consensusSession with
  | none => some (Except.error Error.InvalidMessage, d, [])
  | some cs =>
    if ¬ cs.unconfirmed.contains sender then some (Except.error Error.InvalidMessage, d, [])
    else
      let remaining := cs.unconfirmed.erase sender
      let collected := sessions.foldl (fun acc s =>
        match alLookup s acc with
        | some nodes => alInsert s (nodes ++ [sender]) acc
        | none => alInsert s [sender] acc) cs.collectedUnknown
      let cs := { cs with unconfirmed := remaining, collectedUnknown := collected }
      let d := { d with consensusSession := some cs }
      if ¬ remaining.isEmpty then some (Except.ok (), d, [])
      else
        match cs.newNodesSet with
        | none => none
        | some newSet =>
          let queue := core.localKeys.map (fun p => QueuedSession.known p.1 p.2) ++
            collected.map (fun p => QueuedSession.unknown p.1 p.2)
          let d := { d with
            newNodesSet := some newSet
            sessionsQueue := some queue
            consensusSession := some
              { cs with state := ShareMove.ConsensusState.ConsensusFinished } }
          disseminate core d

/-- `on_initialize_share_change_session` (lines 352-388). -/
def onInitializeShareChangeSession (core : Core) (d : Data) (sender keyId
    masterNodeId : ℕ) (oldSharesSet : List ℕ) (plan : Plan) :
    Option (Except Error Unit × Data × List Out) :=
  if sender ≠ core.meta.masterNodeId then some (Except.error Error.InvalidMessage, d, [])
  else
    match alLookup keyId d.activeSessions with
    | some _ => some (Except.error Error.InvalidMessage, d, [])
    | none =>
      let stub : ShareChangeSessionStub := { masterNodeId := masterNodeId, initialized := false }
      let d := { d with activeSessions := alInsert keyId stub d.activeSessions }
      some (Except.ok (), d,
        [Out.send sender (Msg.confirmShareChangeSessionInitialization core.nonce keyId)])

/-- `on_share_change_session_confirmation` (lines 391-429). -/
def onShareChangeSessionConfirmation (core : Core) (d : Data) (sender keyId : ℕ) :
    Option (Except Error Unit × Data × List Out) :=
  if core.meta.selfNodeId ≠ core.meta.masterNodeId then
    some (Except.error Error.InvalidMessage, d, [])
  else
    match alLookup keyId d.sessionsInitializationState with
    | none => some (Except.error Error.InvalidMessage, d, [])
    | some sid =>
      if ¬ sid.confirmations.contains sender then
        some (Except.error Error.InvalidMessage, d, [])
      else
        let sid := { sid with confirmations := sid.confirmations.erase sender }
        if ¬ sid.confirmations.isEmpty then
          let pending := alInsert keyId sid d.sessionsInitializationState
          some (Except.ok (), { d with sessionsInitializationState := pending }, [])
        else
          let pending := alRemove keyId d.sessionsInitializationState
          let d := { d with sessionsInitializationState := pending }
          if core.meta.selfNodeId ≠ sid.master then
            some (Except.ok (),
              { d with delegatedSessions := alInsert keyId sid.master d.delegatedSessions },
              [Out.send sid.master (Msg.delegate core.nonce keyId)])
          else
            match alLookup keyId d.activeSessions with
            | none => some (Except.error Error.InvalidMessage, d, [])
            | some stub =>
              let stub := { stub with initialized := true }
              some (Except.ok (),
                { d with activeSessions := alInsert keyId stub d.activeSessions }, [])

/-- `on_sessions_delegation` (lines 432-445). -/
def onSessionsDelegation (core : Core) (d : Data) (sender keyId : ℕ) :
    Option (Except Error Unit × Data × List Out) :=
  if sender ≠ core.meta.masterNodeId then some (Except.error Error.InvalidMessage, d, [])
  else
    match alLookup keyId d.activeSessions with
    | none => some (Except.error Error.InvalidMessage, d, [])
    | some stub =>
      let stub := { stub with initialized := true }
      some (Except.ok (),
        { d with activeSessions := alInsert keyId stub d.activeSessions }, [])

/-- `on_delegated_session_completed` (lines 448-475). -/
def onDelegatedSessionCompleted (core : Core) (d : Data) (sender keyId : ℕ) :
    Option (Except Error Unit × Data × List Out) :=
  if core.meta.selfNodeId ≠ core.meta.masterNodeId then
    some (Except.error Error.InvalidMessage, d, [])
  else
    match alLookup keyId d.delegatedSessions with
    | none => some (Except.error Error.InvalidMessage, d, [])
    | some m =>
      if m ≠ sender then some (Except.error Error.InvalidMessage, d, [])
      else
        let d := { d with delegatedSessions := alRemove keyId d.delegatedSessions }
        if d.delegatedSessions.isEmpty ∧ d.activeSessions.isEmpty then
          disseminate core d
        else some (Except.ok (), d, [])

/-- The shared body of `on_share_add_message` / `on_share_move_message` /
`on_share_remove_message` (lines 478-536): route the inner message to the
active sub-session keyed by the embedded session id; on completion drop the
sub-session and, when this node was its master but not the SSC master, return
the delegation. -/
def onShareChangeMsg (core : Core) (d : Data) (keyId : ℕ) (innerError : Option Error)
    (finishes : Bool) : Option (Except Error Unit × Data × List Out) :=
  match alLookup keyId d.activeSessions with
  | none => some (Except.error Error.InvalidMessage, d, [])
  | some stub =>
    match innerError with
    | some e => some (Except.error e, d, [])
    | none =>
      if finishes then
        let d := { d with activeSessions := alRemove keyId d.activeSessions }
        if stub.masterNodeId = core.meta.selfNodeId ∧
            core.meta.selfNodeId ≠ core.meta.masterNodeId then
          some (Except.ok (), d,
            [Out.send core.meta.masterNodeId (Msg.delegateResponse core.nonce keyId)])
        else some (Except.ok (), d, [])
      else some (Except.ok (), d, [])

/-- `on_session_error` (lines 539-541) is `unimplemented!()`: receiving
`ServersSetChangeError` panics. -/
def onSessionError (core : Core) (d : Data) (sender : ℕ) (errorText : ℕ) :
    Option (Except Error Unit × Data × List Out) :=
  none

/-- `on_session_completed` (lines 544-557). -/
def onSessionCompleted (core : Core) (d : Data) (sender : ℕ) :
    Option (Except Error Unit × Data × List Out) :=
  if sender ≠ core.meta.masterNodeId then some (Except.error Error.InvalidMessage, d, [])
  else some (Except.ok (), { d with state := SessionState.Finished }, [])

/-- `process_message` (lines 229-260): replay protection by the session
nonce, then dispatch on the message type. -/
def processMessage (core : Core) (d : Data) (sender : ℕ) (msg : Msg) :
    Option (Except Error Unit × Data × List Out) :=
  if core.nonce ≠ msg.sessionNonce then some (Except.error Error.ReplayProtection, d, [])
  else
    match msg with
    | Msg.consensus _ payload => onConsensusMessage core d sender payload
    | Msg.unknownSessionsRequest _ => onUnknownSessionsRequested core d sender
    | Msg.unknownSessions _ sessions => onUnknownSessions core d sender sessions
    | Msg.initShareChangeSession _ keyId masterNodeId oldSharesSet plan =>
      onInitializeShareChangeSession core d sender keyId masterNodeId oldSharesSet plan
    | Msg.confirmShareChangeSessionInitialization _ keyId =>
      onShareChangeSessionConfirmation core d sender keyId
    | Msg.delegate _ keyId => onSessionsDelegation core d sender keyId
    | Msg.delegateResponse _ keyId => onDelegatedSessionCompleted core d sender keyId
    | Msg.shareAddMessage _ keyId innerError finishes =>
      onShareChangeMsg core d keyId innerError finishes
    | Msg.shareMoveMessage _ keyId innerError finishes =>
      onShareChangeMsg core d keyId innerError finishes
    | Msg.shareRemoveMessage _ keyId innerError finishes =>
      onShareChangeMsg core d keyId innerError finishes
    | Msg.error _ e => onSessionError core d sender e
    | Msg.completed _ => onSessionCompleted core d sender

/-- The state of the master at the start of the scheduling phase: the tail of
`on_unknown_sessions` (lines 343-348) installs the new nodes set and the
aggregated sessions queue on a session whose per-key maps are still empty and
runs the scheduling loop.  The consensus and inventory rounds producing the
queue live in collaborators outside the source files, so the queue and new
set are parameters here. -/
def afterInventory (core : Core) (queue : List QueuedSession) (newSet : List ℕ) :
    Option (Except Error Unit × Data × List Out) :=
  disseminate core
    { Data.init with newNodesSet := some newSet, sessionsQueue := some queue }

/-- The reachable mutable states of an SSC session on one node: the fresh
state of `SessionImpl::new`, the master's `initialize`, the entry into the
scheduling phase, and any number of `process_message` steps (each modelling a
received message; a step that returns an error still keeps the mutations made
before the error, as the session data lives under a mutex). -/
inductive Reachable (core : Core) : Data → Prop
| fresh : Reachable core Data.init
| masterInit (newSet : List ℕ) (sigOld sigNew : ShareMove.Sig)
    (r : Except Error Unit) (d : Data) (outs : List Out) :
    initializeServersSetChange core Data.init newSet sigOld sigNew = some (r, d, outs) →
    Reachable core d
| sched (queue : List QueuedSession) (newSet : List ℕ)
    (r : Except Error Unit) (d : Data) (outs : List Out) :
    afterInventory core queue newSet = some (r, d, outs) → Reachable core d
| step (sender : ℕ) (msg : Msg) (d d' : Data) (r : Except Error Unit) (outs : List Out) :
    Reachable core d → processMessage core d sender msg = some (r, d', outs) →
    Reachable core d'

end SSC

/-- C10: in the share-move sub-session, `on_session_error` accepts a
`ShareMoveError` from any sender in every state, returns `Ok`, sets the
session state to `Finished`, and changes nothing else: no record of the
error, no sender validation, and `shares_to_move`, `received_key_share` and
the key storage are untouched. -/
theorem shareMove_onSessionError_unconditional {σ : Type} (core : ShareMove.SessionCore σ)
    (data : ShareMove.SessionData σ) (w : ShareMove.World σ) (sender errorText : ℕ) :
    ∃ data' : ShareMove.SessionData σ,
      ShareMove.onSessionError core data w sender errorText =
        some (Except.ok (), data', w, []) ∧
      data'.state = ShareMove.SessionState.Finished ∧
      data'.consensusSession = data.consensusSession ∧
      data'.sharesToMove = data.sharesToMove ∧
      data'.moveConfirmationsToReceive = data.moveConfirmationsToReceive ∧
      data'.receivedKeyShare = data.receivedKeyShare :=
  ⟨{ data with state := ShareMove.SessionState.Finished }, rfl, rfl, rfl, rfl, rfl, rfl⟩

/-- The core of a freshly created slave share-move session used to exhibit
the behaviour of early `ShareMove` / `ShareMoveRequest` messages: node 1,
master 3, no local key share. -/
def smCore9 : ShareMove.SessionCore ℕ :=
  { meta := { id := 5, selfNodeId := 1, masterNodeId := 3, threshold := 1 }
    subSession := 6
    nonce := 1
    keyShare := none }

/-- A sample key-share payload for the early `ShareMove` message. -/
def smShare9 : ShareMove.DocumentKeyShare ℕ :=
  { author := 0
    threshold := 1
    idNumbers := [(2, 10), (3, 20)]
    polynom1 := [4]
    secretShare := 7
    commonPoint := none
    encryptedPoint := none }

/-- An empty key storage. -/
def smWorld9 : ShareMove.World ℕ := { storage := [], log := [] }

/-- C9: a `ShareMove` (and a `ShareMoveRequest` from the master) arriving on
a fresh session — before consensus has installed `shares_to_move` — is NOT
rejected with an invalid-state error: the handler first bumps the state to
`WaitingForMoveConfirmation` and then aborts at
`shares_to_move.as_ref().expect("TODO")` (modelled as `none`). -/
theorem shareMove_premature_message_panics :
    ShareMove.processMessage smCore9 (ShareMove.SessionData.init ℕ) smWorld9 2
        (ShareMove.Msg.shareMove 5 6 1 smShare9) = none ∧
    ShareMove.processMessage smCore9 (ShareMove.SessionData.init ℕ) smWorld9 3
        (ShareMove.Msg.shareMoveRequest 5 6 1) = none := by
  constructor <;> rfl

/-- C6: for both session kinds, a message whose `session_nonce` differs from
the session's nonce is rejected with `ReplayProtection` and neither the
mutable session data nor the key storage changes, and nothing is sent. -/
theorem session_replay_protection {σ : Type} (core : SSC.Core) (d : SSC.Data)
    (sender : ℕ) (msg : SSC.Msg) (score : ShareMove.SessionCore σ)
    (sdata : ShareMove.SessionData σ) (sw : ShareMove.World σ) (ssender : ℕ)
    (smsg : ShareMove.Msg σ)
    (h : core.nonce ≠ msg.sessionNonce) (h' : score.nonce ≠ smsg.sessionNonce) :
    SSC.processMessage core d sender msg =
      some (Except.error Error.ReplayProtection, d, []) ∧
    ShareMove.processMessage score sdata sw ssender smsg =
      some (Except.error Error.ReplayProtection, sdata, sw, []) := by
  constructor
  · unfold SSC.processMessage
    rw [if_pos h]
  · unfold ShareMove.processMessage
    rw [if_pos h']

/-- Witness for C6 at a concrete stale-nonce message on both session kinds. -/
theorem session_replay_protection_witness :
    SSC.processMessage
        { meta := { id := 9, selfNodeId := 10, masterNodeId := 10 }, nonce := 1,
          allNodesSet := [10, 11], adminPublic := 0, localKeys := [] }
        SSC.Data.init 11 (SSC.Msg.completed 0) =
      some (Except.error Error.ReplayProtection, SSC.Data.init, []) ∧
    ShareMove.processMessage smCore9 (ShareMove.SessionData.init ℕ) smWorld9 3
        (ShareMove.Msg.shareMoveConfirm 5 6 0) =
      some (Except.error Error.ReplayProtection, ShareMove.SessionData.init ℕ, smWorld9, []) :=
  session_replay_protection _ _ _ _ _ _ _ _ _ (by decide) (by decide)

/-- An SSC master core whose configured administrator public key is `1`
(distinct from `Public::default()`, which is `0`). -/
def sscCore2 : SSC.Core :=
  { meta := { id := 9, selfNodeId := 10, masterNodeId := 10 }
    nonce := 1
    allNodesSet := [10, 11]
    adminPublic := 1
    localKeys := [] }

/-- The matching slave core (node 11), same administrator key `1`. -/
def sscSlaveCore2 : SSC.Core :=
  { meta := { id := 9, selfNodeId := 11, masterNodeId := 10 }
    nonce := 1
    allNodesSet := [10, 11]
    adminPublic := 1
    localKeys := [] }

/-- A signature by the real administrator (key `1`) over the ordered hash of
the node set. -/
def sscSig2 : ShareMove.Sig :=
  { signer := 1, content := ShareMove.orderedNodesHash [10, 11] }

/-- C2: the access job does NOT receive the session core's `admin_public`.
`initialize` on the master and the lazy slave construction in
`on_consensus_message` both build `ServersSetChangeAccessJob` with
`Public::default()` (`0`, the spots marked `TODO: admin key instead of
default`), so even though the administrator signatures verify under the
configured key `1`, the consensus session holds key `0`, and the slave
rejects the correctly signed request with `AccessDenied`. -/
theorem ssc_access_job_ignores_admin_public :
    sscCore2.adminPublic = 1 ∧
    ShareMove.verifySig sscCore2.adminPublic sscSig2 [10, 11] = true ∧
    (SSC.initializeServersSetChange sscCore2 SSC.Data.init [10, 11] sscSig2 sscSig2).map
        (fun r => r.2.1.consensusSession.map ShareMove.ConsensusModel.adminPublic) =
      some (some 0) ∧
    (SSC.onConsensusMessage sscSlaveCore2 SSC.Data.init 10
        (SSC.ConsensusPayloadSet.initializeConsensusSession [10, 11] [10, 11]
          sscSig2 sscSig2)).map
        (fun r => (r.1, r.2.1.consensusSession.map ShareMove.ConsensusModel.adminPublic)) =
      some (Except.error Error.AccessDenied, some 0) := by
  refine ⟨rfl, by decide, rfl, by decide⟩

/-- An SSC master core for the completion claim. -/
def sscCore3 : SSC.Core :=
  { meta := { id := 9, selfNodeId := 10, masterNodeId := 10 }
    nonce := 1
    allNodesSet := [10, 11]
    adminPublic := 0
    localKeys := [] }

/-- The master state with the sessions queue drained and both `active` and
`delegated` maps empty. -/
def sscData3 : SSC.Data :=
  { SSC.Data.init with newNodesSet := some [10, 11], sessionsQueue := some [] }

/-- C3: when the scheduling step finds the queue drained and both
`active_sessions` and `delegated_sessions` empty, it does NOT broadcast
`ServersSetChangeCompleted`, does NOT record `result = Ok` and wakes nobody —
it sends nothing and leaves `result = none` (the completion call on lines
639-642 is commented out as `TODO`), whereas `complete_session` (which the
claim describes, and which has no caller) would broadcast and set the
result. -/
theorem ssc_drained_queue_no_completion :
    SSC.disseminate sscCore3 sscData3 = some (Except.ok (), sscData3, []) ∧
    sscData3.result = none ∧
    (SSC.completeSession sscCore3 sscData3).2.2 =
      [SSC.Out.broadcast (SSC.Msg.completed 1)] ∧
    (SSC.completeSession sscCore3 sscData3).2.1.result = some (Except.ok ()) := by
  refine ⟨?_, rfl, rfl, rfl⟩
  decide

theorem dedup_length_eq_iff_nodup {α : Type} [DecidableEq α] (l : List α) :
    l.dedup.length = l.length ↔ l.Nodup := by
  constructor
  · intro h
    rw [← List.dedup_eq_self]
    exact (List.dedup_sublist l).eq_of_length h
  · intro h
    rw [List.dedup_eq_self.mpr h]

theorem any_snd_eq_false_iff (stm : List (ℕ × ℕ)) (x : ℕ) :
    (stm.any (fun p => p.2 = x)) = false ↔ ∀ p ∈ stm, p.2 ≠ x := by
  simp [List.any_eq_false]

theorem any_fst_eq_true_iff (stm : List (ℕ × ℕ)) (x : ℕ) :
    (stm.any (fun p => p.1 = x)) = true ↔ ∃ p ∈ stm, p.1 = x := by
  simp [List.any_eq_true]

theorem any_not_contains_eq_false_iff {σ : Type} (stm : List (ℕ × ℕ))
    (idn : List (ℕ × σ)) :
    (stm.any (fun p => !alContains p.2 idn)) = false ↔
      ∀ p ∈ stm, p.2 ∈ idn.map Prod.fst := by
  rw [List.any_eq_false]
  constructor
  · intro h p hp
    have h' := h p hp
    cases hc : alContains p.2 idn with
    | true => exact (alLookup_isSome_iff _ _).mp hc
    | false => exact absurd (by simp [hc]) h'
  · intro h p hp
    have hc : alContains p.2 idn = true := (alLookup_isSome_iff _ _).mpr (h p hp)
    simp [hc]

theorem any_contains_eq_false_iff {σ : Type} (stm : List (ℕ × ℕ))
    (idn : List (ℕ × σ)) :
    (stm.any (fun p => alContains p.1 idn)) = false ↔
      ∀ p ∈ stm, p.1 ∉ idn.map Prod.fst := by
  rw [List.any_eq_false]
  constructor
  · intro h p hp hmem
    exact h p hp ((alLookup_isSome_iff _ _).mpr hmem)
  · intro h p hp hc
    exact h p hp ((alLookup_isSome_iff _ _).mp hc)

/-- C8: `check_shares_to_move` returns `Ok` exactly when the map is
non-empty, its values (the move sources) are pairwise distinct, and — when
this node has a current share — every source is a key of `id_numbers` while
no target is, or — when it has none — this node appears among the targets
and not among the sources. -/
theorem checkSharesToMove_ok_iff {σ : Type} (selfId : ℕ) (stm : List (ℕ × ℕ))
    (idnums : Option (List (ℕ × σ))) :
    ShareMove.checkSharesToMove selfId stm idnums = Except.ok () ↔
      (stm ≠ [] ∧ (stm.map Prod.snd).Nodup ∧
        (match idnums with
         | some idn =>
           (∀ p ∈ stm, p.2 ∈ idn.map Prod.fst) ∧ (∀ p ∈ stm, p.1 ∉ idn.map Prod.fst)
         | none => (∃ p ∈ stm, p.1 = selfId) ∧ (∀ p ∈ stm, p.2 ≠ selfId))) := by
  have hlen : (stm.map Prod.snd).length = stm.length := List.length_map _ _
  have hne : ¬ stm.isEmpty = true → stm ≠ [] := by
    intro h hnil
    exact h (by simp [hnil])
  cases idnums with
  | some idn =>
    simp only [ShareMove.checkSharesToMove]
    by_cases h0 : stm.isEmpty
    · simp [List.isEmpty_iff.mp h0]
    · rw [if_neg h0]
      by_cases h1 : (stm.any (fun p => !alContains p.2 idn)) = true
      · rw [if_pos h1]
        constructor
        · intro h
          cases h
        · intro hR
          have : (stm.any (fun p => !alContains p.2 idn)) = false :=
            (any_not_contains_eq_false_iff stm idn).mpr hR.2.2.1
          rw [this] at h1
          cases h1
      · rw [if_neg h1]
        rw [Bool.not_eq_true, any_not_contains_eq_false_iff] at h1
        by_cases h2 : (stm.any (fun p => alContains p.1 idn)) = true
        · rw [if_pos h2]
          constructor
          · intro h
            cases h
          · intro hR
            have : (stm.any (fun p => alContains p.1 idn)) = false :=
              (any_contains_eq_false_iff stm idn).mpr hR.2.2.2
            rw [this] at h2
            cases h2
        · rw [if_neg h2]
          rw [Bool.not_eq_true, any_contains_eq_false_iff] at h2
          by_cases h3 : (stm.map Prod.snd).dedup.length ≠ stm.length
          · rw [if_pos h3]
            constructor
            · intro h
              cases h
            · intro hR
              exact absurd (by rw [← hlen]; exact (dedup_length_eq_iff_nodup _).mpr hR.2.1) h3
          · rw [if_neg h3]
            rw [not_not, ← hlen, dedup_length_eq_iff_nodup] at h3
            simp only [iff_true, true_iff]
            exact ⟨hne h0, h3, h1, h2⟩
  | none =>
    simp only [ShareMove.checkSharesToMove]
    by_cases h0 : stm.isEmpty
    · simp [List.isEmpty_iff.mp h0]
    · rw [if_neg h0]
      by_cases h1 : (stm.any (fun p => p.2 = selfId)) = true
      · rw [if_pos h1]
        constructor
        · intro h
          cases h
        · intro hR
          have : (stm.any (fun p => p.2 = selfId)) = false :=
            (any_snd_eq_false_iff stm selfId).mpr hR.2.2.2
          rw [this] at h1
          cases h1
      · rw [if_neg h1]
        rw [Bool.not_eq_true, any_snd_eq_false_iff] at h1
        by_cases h2 : (stm.any (fun p => p.1 = selfId)) = true
        · rw [if_neg (by simp [h2] : ¬ (!stm.any (fun p => p.1 = selfId)) = true)]
          rw [any_fst_eq_true_iff] at h2
          by_cases h3 : (stm.map Prod.snd).dedup.length ≠ stm.length
          · rw [if_pos h3]
            constructor
            · intro h
              cases h
            · intro hR
              exact absurd (by rw [← hlen]; exact (dedup_length_eq_iff_nodup _).mpr hR.2.1) h3
          · rw [if_neg h3]
            rw [not_not, ← hlen, dedup_length_eq_iff_nodup] at h3
            simp only [iff_true, true_iff]
            exact ⟨hne h0, h3, h2, h1⟩
        · have h2f : (stm.any (fun p => p.1 = selfId)) = false := by
            cases hq : stm.any (fun p => p.1 = selfId)
            · rfl
            · exact absurd hq h2
          rw [if_pos (by rw [h2f]; rfl : (!stm.any (fun p => p.1 = selfId)) = true)]
          constructor
          · intro h
            cases h
          · intro hR
            have hq := (any_fst_eq_true_iff stm selfId).mpr hR.2.2.1
            rw [h2f] at hq
            cases hq

theorem any_snd_eq_true_iff (stm : List (ℕ × ℕ)) (x : ℕ) :
    (stm.any (fun p => p.2 = x)) = true ↔ x ∈ stm.map Prod.snd := by
  simp [List.any_eq_true, List.mem_map]

/-- C7: `complete_session` of the share-move sub-session — when this node is
a source of a move it removes the key from storage and changes nothing else;
otherwise it takes `received_key_share` when present (fresh target) or the
pre-existing `key_share` (survivor), rewrites `id_numbers` by moving every
source's entry to its target (`moveIdNumbers`), and stores the result with
`insert` on a fresh target and `update` on a survivor. -/
theorem shareMove_completeSession_behaviour {σ : Type} (core : ShareMove.SessionCore σ)
    (data : ShareMove.SessionData σ) (w : ShareMove.World σ) (stm : List (ℕ × ℕ))
    (hstm : data.sharesToMove = some stm) :
    (core.meta.selfNodeId ∈ stm.map Prod.snd →
      ShareMove.completeSession core data w =
        some (Except.ok (), data, ShareMove.World.remove core.meta.id w)) ∧
    (core.meta.selfNodeId ∉ stm.map Prod.snd →
      ∀ rk idn, data.receivedKeyShare = some rk →
        ShareMove.moveIdNumbers stm rk.idNumbers = some idn →
        ShareMove.completeSession core data w =
          some (Except.ok (), { data with receivedKeyShare := none },
            ShareMove.World.insert core.meta.id { rk with idNumbers := idn } w)) ∧
    (core.meta.selfNodeId ∉ stm.map Prod.snd → data.receivedKeyShare = none →
      ∀ ks idn, core.keyShare = some ks →
        ShareMove.moveIdNumbers stm ks.idNumbers = some idn →
        ShareMove.completeSession core data w =
          some (Except.ok (), { data with receivedKeyShare := none },
            ShareMove.World.update core.meta.id { ks with idNumbers := idn } w)) := by
  refine ⟨?_, ?_, ?_⟩
  · intro hmem
    have hany : (stm.any (fun p => p.2 = core.meta.selfNodeId)) = true :=
      (any_snd_eq_true_iff _ _).mpr hmem
    simp only [ShareMove.completeSession, hstm, hany, if_true]
  · intro hmem rk idn hrk hmv
    have hany : (stm.any (fun p => p.2 = core.meta.selfNodeId)) = false := by
      cases hq : stm.any (fun p => p.2 = core.meta.selfNodeId)
      · rfl
      · exact absurd ((any_snd_eq_true_iff _ _).mp hq) hmem
    simp only [ShareMove.completeSession, hstm, hany, Bool.false_eq_true, if_false, hrk,
      Option.isNone_some, hmv]
  · intro hmem hrk ks idn hks hmv
    have hany : (stm.any (fun p => p.2 = core.meta.selfNodeId)) = false := by
      cases hq : stm.any (fun p => p.2 = core.meta.selfNodeId)
      · rfl
      · exact absurd ((any_snd_eq_true_iff _ _).mp hq) hmem
    simp only [ShareMove.completeSession, hstm, hany, Bool.false_eq_true, if_false, hrk,
      Option.isNone_none, hks, hmv]
    rw [if_pos trivial]

/-- A survivor node's core for the C7 witness: node 1 keeps its share while
node 2's share moves to node 5. -/
def smCore7 : ShareMove.SessionCore ℕ :=
  { meta := { id := 5, selfNodeId := 1, masterNodeId := 1, threshold := 1 }
    subSession := 6
    nonce := 1
    keyShare := some smShare9 }

/-- Session data of the survivor after consensus installed the move map
`{5 → 2}`. -/
def smData7 : ShareMove.SessionData ℕ :=
  { state := ShareMove.SessionState.WaitingForMoveConfirmation
    consensusSession := none
    sharesToMove := some [(5, 2)]
    moveConfirmationsToReceive := some []
    receivedKeyShare := none }

/-- Witness for C7: on the survivor the key share is stored back with
`update` and `id_numbers` rewritten from `{2, 3}` to `{5, 3}`. -/
theorem shareMove_completeSession_behaviour_witness :
    ShareMove.completeSession smCore7 smData7 { storage := [(5, smShare9)], log := [] } =
      some (Except.ok (), { smData7 with receivedKeyShare := none },
        ShareMove.World.update 5 { smShare9 with idNumbers := [(5, 10), (3, 20)] }
          { storage := [(5, smShare9)], log := [] }) :=
  (shareMove_completeSession_behaviour smCore7 smData7 _ [(5, 2)] rfl).2.2
    (by decide) rfl smShare9 [(5, 10), (3, 20)] rfl rfl

theorem scheduleOne_delegated {core : SSC.Core} {newSet : List ℕ} {q : SSC.QueuedSession}
    {d d' : SSC.Data} {sent : List SSC.Out}
    (h : SSC.scheduleOne core newSet q d = some (d', sent)) :
    d'.delegatedSessions = d.delegatedSessions := by
  simp only [SSC.scheduleOne] at h
  split at h
  · cases h
  · split at h
    · split at h
      · cases h
      · cases h
        split <;> rfl
    · cases h
      split <;> rfl

theorem disseminateLoop_delegated (core : SSC.Core) (newSet : List ℕ) :
    ∀ (fuel : ℕ) (queue : List SSC.QueuedSession) (d : SSC.Data) (outs : List SSC.Out)
      {d' : SSC.Data} {outs' : List SSC.Out} {rest : List SSC.QueuedSession},
      SSC.disseminateLoop core newSet fuel queue d outs = some (d', outs', rest) →
      d'.delegatedSessions = d.delegatedSessions := by
  intro fuel
  induction fuel with
  | zero =>
    intro queue d outs d' outs' rest h
    simp only [SSC.disseminateLoop] at h
    cases h
    rfl
  | succ n ih =>
    intro queue d outs d' outs' rest h
    cases queue with
    | nil =>
      simp only [SSC.disseminateLoop] at h
      cases h
      rfl
    | cons q queue =>
      simp only [SSC.disseminateLoop] at h
      split at h
      · cases h
      · rename_i d1 sent heq
        exact (ih queue d1 _ h).trans (scheduleOne_delegated heq)

theorem disseminate_delegated {core : SSC.Core} {d : SSC.Data} {r : Except Error Unit}
    {d' : SSC.Data} {outs : List SSC.Out}
    (h : SSC.disseminate core d = some (r, d', outs)) :
    d'.delegatedSessions = d.delegatedSessions := by
  simp only [SSC.disseminate] at h
  split at h
  · cases h
    rfl
  · split at h
    · cases h
    · split at h
      · cases h
      · rename_i heq
        cases h
        have hdel := disseminateLoop_delegated core _ _ _ _ _ heq
        exact hdel

theorem onConsensusMessage_delegated {core : SSC.Core} {d : SSC.Data} {sender : ℕ}
    {p : SSC.ConsensusPayloadSet} {r : Except Error Unit} {d' : SSC.Data}
    {outs : List SSC.Out}
    (h : SSC.onConsensusMessage core d sender p = some (r, d', outs)) :
    d'.delegatedSessions = d.delegatedSessions := by
  simp only [SSC.onConsensusMessage] at h
  split at h
  · cases h
    rfl
  · rename_i d2 heq2
    have hd2 : d2.delegatedSessions = d.delegatedSessions := by
      split at heq2
      · split at heq2
        · cases heq2
          rfl
        · cases heq2
      · cases heq2
        rfl
    repeat' split at h
    all_goals cases h
    all_goals simp only [hd2]

theorem onUnknownSessionsRequested_delegated {core : SSC.Core} {d : SSC.Data} {sender : ℕ}
    {r : Except Error Unit} {d' : SSC.Data} {outs : List SSC.Out}
    (h : SSC.onUnknownSessionsRequested core d sender = some (r, d', outs)) :
    d'.delegatedSessions = d.delegatedSessions := by
  simp only [SSC.onUnknownSessionsRequested] at h
  repeat' split at h
  all_goals cases h
  all_goals rfl

theorem onUnknownSessions_delegated {core : SSC.Core} {d : SSC.Data} {sender : ℕ}
    {sessions : List ℕ} {r : Except Error Unit} {d' : SSC.Data} {outs : List SSC.Out}
    (h : SSC.onUnknownSessions core d sender sessions = some (r, d', outs)) :
    d'.delegatedSessions = d.delegatedSessions := by
  simp only [SSC.onUnknownSessions] at h
  repeat' split at h
  all_goals first
  | (cases h; try rfl)
  | (have hdel := disseminate_delegated h; exact hdel)

theorem onInitializeShareChangeSession_delegated {core : SSC.Core} {d : SSC.Data}
    {sender keyId masterNodeId : ℕ} {oldSharesSet : List ℕ} {plan : SSC.Plan}
    {r : Except Error Unit} {d' : SSC.Data} {outs : List SSC.Out}
    (h : SSC.onInitializeShareChangeSession core d sender keyId masterNodeId oldSharesSet
      plan = some (r, d', outs)) :
    d'.delegatedSessions = d.delegatedSessions := by
  simp only [SSC.onInitializeShareChangeSession] at h
  repeat' split at h
  all_goals cases h
  all_goals rfl

theorem onSessionsDelegation_delegated {core : SSC.Core} {d : SSC.Data} {sender keyId : ℕ}
    {r : Except Error Unit} {d' : SSC.Data} {outs : List SSC.Out}
    (h : SSC.onSessionsDelegation core d sender keyId = some (r, d', outs)) :
    d'.delegatedSessions = d.delegatedSessions := by
  simp only [SSC.onSessionsDelegation] at h
  repeat' split at h
  all_goals cases h
  all_goals rfl

theorem onShareChangeMsg_delegated {core : SSC.Core} {d : SSC.Data} {keyId : ℕ}
    {innerError : Option Error} {finishes : Bool} {r : Except Error Unit} {d' : SSC.Data}
    {outs : List SSC.Out}
    (h : SSC.onShareChangeMsg core d keyId innerError finishes = some (r, d', outs)) :
    d'.delegatedSessions = d.delegatedSessions := by
  simp only [SSC.onShareChangeMsg] at h
  repeat' split at h
  all_goals cases h
  all_goals rfl

theorem onSessionCompleted_delegated {core : SSC.Core} {d : SSC.Data} {sender : ℕ}
    {r : Except Error Unit} {d' : SSC.Data} {outs : List SSC.Out}
    (h : SSC.onSessionCompleted core d sender = some (r, d', outs)) :
    d'.delegatedSessions = d.delegatedSessions := by
  simp only [SSC.onSessionCompleted] at h
  repeat' split at h
  all_goals cases h
  all_goals rfl

theorem onShareChangeSessionConfirmation_remote {core : SSC.Core} {d : SSC.Data}
    {sender keyId : ℕ} {r : Except Error Unit} {d' : SSC.Data} {outs : List SSC.Out}
    (h : SSC.onShareChangeSessionConfirmation core d sender keyId = some (r, d', outs))
    (hP : ∀ k m, alLookup k d.delegatedSessions = some m → m ≠ core.meta.selfNodeId) :
    ∀ k m, alLookup k d'.delegatedSessions = some m → m ≠ core.meta.selfNodeId := by
  simp only [SSC.onShareChangeSessionConfirmation] at h
  repeat' split at h
  all_goals cases h
  all_goals try exact hP
  rename_i sid hlook hconf hempty hmaster
  intro k m hk
  simp only [alLookup_alInsert] at hk
  by_cases hkk : k = keyId
  · rw [if_pos hkk] at hk
    cases hk
    exact fun hcontra => hmaster hcontra.symm
  · rw [if_neg hkk] at hk
    exact hP k m hk

theorem onDelegatedSessionCompleted_remote {core : SSC.Core} {d : SSC.Data}
    {sender keyId : ℕ} {r : Except Error Unit} {d' : SSC.Data} {outs : List SSC.Out}
    (h : SSC.onDelegatedSessionCompleted core d sender keyId = some (r, d', outs))
    (hP : ∀ k m, alLookup k d.delegatedSessions = some m → m ≠ core.meta.selfNodeId) :
    ∀ k m, alLookup k d'.delegatedSessions = some m → m ≠ core.meta.selfNodeId := by
  have hrem : ∀ k m, alLookup k (alRemove keyId d.delegatedSessions) = some m →
      m ≠ core.meta.selfNodeId := by
    intro k m hk
    rw [alLookup_alRemove] at hk
    by_cases hkk : k = keyId
    · rw [if_pos hkk] at hk
      cases hk
    · rw [if_neg hkk] at hk
      exact hP k m hk
  simp only [SSC.onDelegatedSessionCompleted] at h
  repeat' split at h
  all_goals try (cases h; try exact hP)
  · intro k m hk
    have hdel := disseminate_delegated h
    rw [hdel] at hk
    exact hrem k m hk
  · exact hrem

theorem processMessage_remote {core : SSC.Core} {d : SSC.Data} {sender : ℕ} {msg : SSC.Msg}
    {r : Except Error Unit} {d' : SSC.Data} {outs : List SSC.Out}
    (h : SSC.processMessage core d sender msg = some (r, d', outs))
    (hP : ∀ k m, alLookup k d.delegatedSessions = some m → m ≠ core.meta.selfNodeId) :
    ∀ k m, alLookup k d'.delegatedSessions = some m → m ≠ core.meta.selfNodeId := by
  unfold SSC.processMessage at h
  split at h
  · cases h
    exact hP
  · cases msg with
    | consensus n p =>
      have hd := onConsensusMessage_delegated h
      intro k m hk
      rw [hd] at hk
      exact hP k m hk
    | unknownSessionsRequest n =>
      have hd := onUnknownSessionsRequested_delegated h
      intro k m hk
      rw [hd] at hk
      exact hP k m hk
    | unknownSessions n sessions =>
      have hd := onUnknownSessions_delegated h
      intro k m hk
      rw [hd] at hk
      exact hP k m hk
    | initShareChangeSession n keyId masterNodeId oldSharesSet plan =>
      have hd := onInitializeShareChangeSession_delegated h
      intro k m hk
      rw [hd] at hk
      exact hP k m hk
    | confirmShareChangeSessionInitialization n keyId =>
      exact onShareChangeSessionConfirmation_remote h hP
    | delegate n keyId =>
      have hd := onSessionsDelegation_delegated h
      intro k m hk
      rw [hd] at hk
      exact hP k m hk
    | delegateResponse n keyId =>
      exact onDelegatedSessionCompleted_remote h hP
    | shareAddMessage n keyId innerError finishes =>
      have hd := onShareChangeMsg_delegated h
      intro k m hk
      rw [hd] at hk
      exact hP k m hk
    | shareMoveMessage n keyId innerError finishes =>
      have hd := onShareChangeMsg_delegated h
      intro k m hk
      rw [hd] at hk
      exact hP k m hk
    | shareRemoveMessage n keyId innerError finishes =>
      have hd := onShareChangeMsg_delegated h
      intro k m hk
      rw [hd] at hk
      exact hP k m hk
    | error n e =>
      cases h
    | completed n =>
      have hd := onSessionCompleted_delegated h
      intro k m hk
      rw [hd] at hk
      exact hP k m hk

/-- C5 (amended): in every reachable master state, every `delegated_sessions`
entry names a sub-master different from this node — `delegated_sessions`
tracks exactly the remotely-mastered sub-sessions.  The original claim that
no key is simultaneously in `active_sessions` and `delegated_sessions` is
false: when the master participates in a remotely-mastered sub-session the
key sits in both maps (see the counterexample). -/
theorem ssc_delegated_sessions_remote (core : SSC.Core) (d : SSC.Data)
    (h : SSC.Reachable core d) :
    ∀ k m, alLookup k d.delegatedSessions = some m → m ≠ core.meta.selfNodeId := by
  induction h with
  | fresh =>
    intro k m hk
    simp [SSC.Data.init, alLookup] at hk
  | masterInit newSet sigOld sigNew r d outs heq =>
    cases heq
    intro k m hk
    simp [SSC.Data.init, alLookup] at hk
  | sched queue newSet r d outs heq =>
    intro k m hk
    have hdel := disseminate_delegated heq
    rw [hdel] at hk
    simp [SSC.Data.init, alLookup] at hk
  | step sender msg d d' r outs _ heq ih =>
    exact processMessage_remote heq ih

/-- The SSC master core of the overlap counterexample: node 100 is the SSC
master; node 50 is the only holder of key 7. -/
def core5 : SSC.Core :=
  { meta := { id := 9, selfNodeId := 100, masterNodeId := 100 }
    nonce := 1
    allNodesSet := [100, 50]
    adminPublic := 0
    localKeys := [] }

/-- The queued sub-session of key 7, unknown to the master, held by node 50. -/
def q5 : SSC.QueuedSession := SSC.QueuedSession.unknown 7 [50]

/-- The master state right after the scheduling step for key 7 (new nodes set
`{100}`: node 50's share moves to the master, so the master is a participant
and pre-creates the sub-session while node 50 is its sub-master). -/
def d5a : SSC.Data :=
  match SSC.afterInventory core5 [q5] [100] with
  | some res => res.2.1
  | none => SSC.Data.init

/-- The master state after node 50 confirmed the sub-session initialization:
the sub-session is delegated to node 50 while the master's own copy stays in
`active_sessions`. -/
def d5b : SSC.Data :=
  match SSC.processMessage core5 d5a 50
      (SSC.Msg.confirmShareChangeSessionInitialization 1 7) with
  | some res => res.2.1
  | none => SSC.Data.init

theorem reachable_d5b : SSC.Reachable core5 d5b := by
  have h1 : SSC.Reachable core5 d5a := by
    apply SSC.Reachable.sched [q5] [100] (Except.ok ()) d5a
      (match SSC.afterInventory core5 [q5] [100] with
       | some res => res.2.2
       | none => [])
    decide
  apply SSC.Reachable.step 50 (SSC.Msg.confirmShareChangeSessionInitialization 1 7) d5a d5b
    (Except.ok ())
    (match SSC.processMessage core5 d5a 50
        (SSC.Msg.confirmShareChangeSessionInitialization 1 7) with
     | some res => res.2.2
     | none => []) h1
  decide

/-- C5 counterexample: in the reachable master state `d5b` the key 7 is
present in `active_sessions` AND in `delegated_sessions` at the same time,
refuting "never both". -/
theorem ssc_active_and_delegated_overlap :
    SSC.Reachable core5 d5b ∧
    alContains 7 d5b.activeSessions = true ∧
    alContains 7 d5b.delegatedSessions = true :=
  ⟨reachable_d5b, by decide, by decide⟩

/-- Witness for the amended C5 at the concrete reachable state `d5b`: its
single delegation entry names node 50, not the master 100. -/
theorem ssc_delegated_sessions_remote_witness :
    alLookup 7 d5b.delegatedSessions = some 50 ∧
    (∀ k m, alLookup k d5b.delegatedSessions = some m → m ≠ core5.meta.selfNodeId) :=
  ⟨by decide, ssc_delegated_sessions_remote core5 d5b reachable_d5b⟩

theorem scheduleOne_active_le {core : SSC.Core} {newSet : List ℕ} {q : SSC.QueuedSession}
    {d d' : SSC.Data} {sent : List SSC.Out}
    (h : SSC.scheduleOne core newSet q d = some (d', sent)) :
    d'.activeSessions.length ≤ d.activeSessions.length + 1 := by
  simp only [SSC.scheduleOne] at h
  split at h
  · cases h
  · split at h
    · split at h
      · cases h
      · rename_i stub hlook
        cases h
        have h2 := alInsert_length_le_of_mem (v := { stub with initialized := true })
          (by rw [hlook]; rfl)
        refine le_trans h2 ?_
        split
        · exact alInsert_length_le _ _ _
        · exact Nat.le_succ _
    · cases h
      split
      · exact alInsert_length_le _ _ _
      · exact Nat.le_succ _

theorem disseminateLoop_active_le (core : SSC.Core) (newSet : List ℕ) :
    ∀ (fuel : ℕ) (queue : List SSC.QueuedSession) (d : SSC.Data) (outs : List SSC.Out)
      {d' : SSC.Data} {outs' : List SSC.Out} {rest : List SSC.QueuedSession},
      SSC.disseminateLoop core newSet fuel queue d outs = some (d', outs', rest) →
      d'.activeSessions.length ≤ d.activeSessions.length + fuel := by
  intro fuel
  induction fuel with
  | zero =>
    intro queue d outs d' outs' rest h
    simp only [SSC.disseminateLoop] at h
    cases h
    exact Nat.le_refl _
  | succ n ih =>
    intro queue d outs d' outs' rest h
    cases queue with
    | nil =>
      simp only [SSC.disseminateLoop] at h
      cases h
      exact Nat.le_add_right _ _
    | cons q queue =>
      simp only [SSC.disseminateLoop] at h
      split at h
      · cases h
      · rename_i d1 sent heq
        have h1 := ih queue d1 _ h
        have h2 := scheduleOne_active_le heq
        omega

/-- C4 (amended): the concurrency cap governs a single scheduling call — each
call to `disseminate_session_initialization_requests` starts at most
`MAX_ACTIVE_SESSIONS − (|active_sessions| + |delegated_sessions|)` new
sub-sessions, so if `|active_sessions| + |delegated_sessions| ≤ 64` held when
the call began, it still holds when the call returns.  The cap does NOT count
the pending-initialization map, and across calls the total of sub-sessions in
the three states can exceed 64 (see the counterexample). -/
theorem ssc_disseminate_respects_bound (core : SSC.Core) (d : SSC.Data)
    (r : Except Error Unit) (d' : SSC.Data) (outs : List SSC.Out)
    (hle : d.activeSessions.length + d.delegatedSessions.length ≤ SSC.MAX_ACTIVE_SESSIONS)
    (h : SSC.disseminate core d = some (r, d', outs)) :
    d'.activeSessions.length + d'.delegatedSessions.length ≤ SSC.MAX_ACTIVE_SESSIONS := by
  have hdel := disseminate_delegated h
  simp only [SSC.disseminate] at h
  split at h
  · cases h
    exact hle
  · split at h
    · cases h
    · split at h
      · cases h
      · rename_i dl outsl restl heq
        cases h
        have hact := disseminateLoop_active_le core _ _ _ _ _ heq
        have hlen : dl.delegatedSessions.length = d.delegatedSessions.length := by
          rw [show dl.delegatedSessions = d.delegatedSessions from hdel]
        show dl.activeSessions.length + dl.delegatedSessions.length ≤ SSC.MAX_ACTIVE_SESSIONS
        simp only [SSC.MAX_ACTIVE_SESSIONS] at hact hle ⊢
        omega

/-- The data on which the scheduling call producing `d5a` ran, for the C4
witness. -/
def d5pre : SSC.Data :=
  { SSC.Data.init with newNodesSet := some [100], sessionsQueue := some [q5] }

/-- The messages sent by that scheduling call. -/
def o5a : List SSC.Out :=
  match SSC.afterInventory core5 [q5] [100] with
  | some res => res.2.2
  | none => []

/-- Witness for the amended C4 at a concrete scheduling call. -/
theorem ssc_disseminate_respects_bound_witness :
    d5a.activeSessions.length + d5a.delegatedSessions.length ≤ SSC.MAX_ACTIVE_SESSIONS :=
  ssc_disseminate_respects_bound core5 d5pre (Except.ok ()) d5a o5a (by decide) (by decide)

/-- The SSC master core of the over-booking counterexample. -/
def core4 : SSC.Core :=
  { meta := { id := 9, selfNodeId := 100, masterNodeId := 100 }
    nonce := 1
    allNodesSet := [100, 50]
    adminPublic := 0
    localKeys := [] }

/-- 66 queued sub-sessions, all unknown to the master and held by node 50. -/
def queue4 : List SSC.QueuedSession :=
  (List.range 66).map (fun i => SSC.QueuedSession.unknown i [50])

/-- Master state after the first scheduling call: 64 sub-sessions pending
initialization, two still queued. -/
def d4a : SSC.Data :=
  match SSC.afterInventory core4 queue4 [50] with
  | some res => res.2.1
  | none => SSC.Data.init

/-- After node 50 confirmed sub-session 0: 63 pending, one delegated. -/
def d4b : SSC.Data :=
  match SSC.processMessage core4 d4a 50
      (SSC.Msg.confirmShareChangeSessionInitialization 1 0) with
  | some res => res.2.1
  | none => SSC.Data.init

/-- After node 50 returned the delegation of sub-session 0: both maps empty
again, so the scheduling loop reruns and starts the remaining two queued
sub-sessions, giving 65 pending sub-sessions. -/
def d4c : SSC.Data :=
  match SSC.processMessage core4 d4b 50 (SSC.Msg.delegateResponse 1 0) with
  | some res => res.2.1
  | none => SSC.Data.init

theorem reachable_d4c : SSC.Reachable core4 d4c := by
  have h1 : SSC.Reachable core4 d4a := by
    apply SSC.Reachable.sched queue4 [50] (Except.ok ()) d4a
      (match SSC.afterInventory core4 queue4 [50] with
       | some res => res.2.2
       | none => [])
    decide
  have h2 : SSC.Reachable core4 d4b := by
    apply SSC.Reachable.step 50 (SSC.Msg.confirmShareChangeSessionInitialization 1 0) d4a d4b
      (Except.ok ())
      (match SSC.processMessage core4 d4a 50
          (SSC.Msg.confirmShareChangeSessionInitialization 1 0) with
       | some res => res.2.2
       | none => []) h1
    decide
  apply SSC.Reachable.step 50 (SSC.Msg.delegateResponse 1 0) d4b d4c (Except.ok ())
    (match SSC.processMessage core4 d4b 50 (SSC.Msg.delegateResponse 1 0) with
     | some res => res.2.2
     | none => []) h2
  decide

/-- C4 counterexample: in the reachable master state `d4c`, 65 distinct keys
are simultaneously in the pending-initialization, active or delegated state,
refuting the claimed bound of `MAX_ACTIVE_SESSIONS = 64` across the three
states (the scheduling budget only subtracts `|active| + |delegated|` and
never counts `sessions_initialization_state`). -/
theorem ssc_pending_sessions_exceed_bound :
    SSC.Reachable core4 d4c ∧
    SSC.MAX_ACTIVE_SESSIONS <
      ((d4c.sessionsInitializationState.map Prod.fst ++ d4c.activeSessions.map Prod.fst ++
        d4c.delegatedSessions.map Prod.fst).dedup).length :=
  ⟨reachable_d4c, by decide⟩

namespace Shamir

/-- Modelled from the spec (§8, glossary "t+1 shares reconstruct the
secret"): Shamir reconstruction of the secret from a list of `(x, y)` share
points by Lagrange interpolation evaluated at zero.  The polynomial math
itself lives outside the two source files. -/
def reconstruct {F : Type} [Field F] [DecidableEq F] (pts : List (F × F)) : F :=
  (pts.map (fun p =>
    p.2 * ((pts.filter (fun q => q.1 ≠ p.1)).map (fun q => q.1 / (q.1 - p.1))).prod)).sum

/-- The x-coordinate that a stored `id_numbers` map assigns to a node. -/
def xCoord {F : Type} [Field F] (idn : List (ℕ × F)) (n : ℕ) : F :=
  (alLookup n idn).getD 0

/-- The node whose pre-move share a node holds after the move: a move target
holds its source's payload (`move_share` sends the source's full
`DocumentKeyShare` and `complete_session` stores it), every other node keeps
its own. -/
def moveOrigin (stm : List (ℕ × ℕ)) (n : ℕ) : ℕ :=
  (alLookup n stm).getD n

/-- The secret share held after the move: the payload travels unchanged. -/
def newSecretShare {F : Type} (stm : List (ℕ × ℕ)) (y : ℕ → F) (n : ℕ) : F :=
  y (moveOrigin stm n)

/-- The nodes holding a share after the move: old holders that are not move
sources (the sources `KeyStorage::remove` their share) plus the move
targets. -/
def isNewHolder {σ : Type} (stm : List (ℕ × ℕ)) (idn : List (ℕ × σ)) (n : ℕ) : Prop :=
  (n ∈ idn.map Prod.fst ∧ n ∉ stm.map Prod.snd) ∨ n ∈ stm.map Prod.fst

end Shamir

theorem moveIdNumbers_spec {σ : Type} :
    ∀ (stm : List (ℕ × ℕ)) (idn : List (ℕ × σ)),
    (∀ p ∈ stm, p.2 ∈ idn.map Prod.fst) →
    (stm.map Prod.snd).Nodup →
    (∀ p ∈ stm, p.1 ∉ idn.map Prod.fst) →
    (stm.map Prod.fst).Nodup →
    ∃ m, ShareMove.moveIdNumbers stm idn = some m ∧
      (∀ p ∈ stm, alLookup p.1 m = alLookup p.2 idn) ∧
      (∀ p ∈ stm, alLookup p.2 m = none) ∧
      (∀ n, n ∉ stm.map Prod.fst → n ∉ stm.map Prod.snd → alLookup n m = alLookup n idn)
| [], idn, _, _, _, _ =>
  ⟨idn, rfl, by simp, by simp, fun n _ _ => rfl⟩
| (t, s) :: rest, idn, hsrc, hsnd, htgt, hfst => by
  have hs : s ∈ idn.map Prod.fst := by
    simpa using hsrc (t, s) (List.mem_cons_self _ _)
  have ht : t ∉ idn.map Prod.fst := by
    simpa using htgt (t, s) (List.mem_cons_self _ _)
  obtain ⟨x, hx⟩ := Option.isSome_iff_exists.mp ((alLookup_isSome_iff s idn).mpr hs)
  have hts : t ≠ s := fun h => ht (h ▸ hs)
  have hsndc : (s :: rest.map Prod.snd).Nodup := by
    rw [List.map_cons] at hsnd
    exact hsnd
  have hsnd' : (rest.map Prod.snd).Nodup := (List.nodup_cons.mp hsndc).2
  have hsnots : s ∉ rest.map Prod.snd := (List.nodup_cons.mp hsndc).1
  have hfstc : (t :: rest.map Prod.fst).Nodup := by
    rw [List.map_cons] at hfst
    exact hfst
  have hfst' : (rest.map Prod.fst).Nodup := (List.nodup_cons.mp hfstc).2
  have htnotf : t ∉ rest.map Prod.fst := (List.nodup_cons.mp hfstc).1
  have hlook' : ∀ n, n ≠ t → n ≠ s →
      alLookup n (alInsert t x (alRemove s idn)) = alLookup n idn := by
    intro n hnt hns
    rw [alLookup_alInsert, if_neg hnt, alLookup_alRemove, if_neg hns]
  have hsrc' : ∀ p ∈ rest, p.2 ∈ (alInsert t x (alRemove s idn)).map Prod.fst := by
    intro p hp
    have h1 : p.2 ∈ idn.map Prod.fst := hsrc p (List.mem_cons_of_mem _ hp)
    have h2 : p.2 ≠ s := fun h => hsnots (h ▸ List.mem_map_of_mem Prod.snd hp)
    have h3 : p.2 ≠ t := fun h => ht (h ▸ h1)
    rw [← alLookup_isSome_iff, hlook' p.2 h3 h2, alLookup_isSome_iff]
    exact h1
  have htgt' : ∀ p ∈ rest, p.1 ∉ (alInsert t x (alRemove s idn)).map Prod.fst := by
    intro p hp hmem
    have h1 : p.1 ∉ idn.map Prod.fst := htgt p (List.mem_cons_of_mem _ hp)
    have h3 : p.1 ≠ t := fun h => htnotf (h ▸ List.mem_map_of_mem Prod.fst hp)
    have h2 : p.1 ≠ s := fun h => h1 (h ▸ hs)
    rw [← alLookup_isSome_iff, hlook' p.1 h3 h2, alLookup_isSome_iff] at hmem
    exact h1 hmem
  obtain ⟨m, hm, hA, hB, hC⟩ :=
    moveIdNumbers_spec rest (alInsert t x (alRemove s idn)) hsrc' hsnd' htgt' hfst'
  refine ⟨m, ?_, ?_, ?_, ?_⟩
  · simp only [ShareMove.moveIdNumbers, hx, hm]
  · intro p hp
    cases List.mem_cons.mp hp with
    | inl hhead =>
      cases hhead
      have h1 : t ∉ rest.map Prod.snd := by
        intro hmem
        obtain ⟨p2, hp2, hp2e⟩ := List.mem_map.mp hmem
        exact ht (hp2e ▸ hsrc p2 (List.mem_cons_of_mem _ hp2))
      rw [hC t htnotf h1, alLookup_alInsert, if_pos rfl, hx]
    | inr htail =>
      have h2 : p.2 ≠ s := fun h => hsnots (h ▸ List.mem_map_of_mem Prod.snd htail)
      have h3 : p.2 ≠ t :=
        fun h => ht (h ▸ hsrc p (List.mem_cons_of_mem _ htail))
      rw [hA p htail, hlook' p.2 h3 h2]
  · intro p hp
    cases List.mem_cons.mp hp with
    | inl hhead =>
      cases hhead
      have h1 : s ∉ rest.map Prod.fst := by
        intro hmem
        obtain ⟨p2, hp2, hp2e⟩ := List.mem_map.mp hmem
        exact htgt p2 (List.mem_cons_of_mem _ hp2) (hp2e ▸ hs)
      rw [hC s h1 hsnots, alLookup_alInsert, if_neg (fun h => hts h.symm),
        alLookup_alRemove, if_pos rfl]
    | inr htail =>
      exact hB p htail
  · intro n hnf hns
    have h1 : n ∉ rest.map Prod.fst := fun h => hnf (by simpa using Or.inr h)
    have h2 : n ∉ rest.map Prod.snd := fun h => hns (by simpa using Or.inr h)
    have h3 : n ≠ t := fun h => hnf (by simpa using Or.inl h)
    have h4 : n ≠ s := fun h => hns (by simpa using Or.inl h)
    rw [hC n h1 h2, hlook' n h3 h4]

/-- C1: secret preservation under a successful Share-Move sub-session.  For
any initial `(t, n)` sharing of a secret `s` — any `t+1` of the holders'
`(id_number, secret_share)` points reconstruct `s` — and any `shares_to_move`
map accepted by `check_shares_to_move`, after the move (each source's share
removed; on every surviving or target node `id_numbers` rewritten by
`complete_session`'s loop, the moved payload unchanged) the secret
reconstructed from any `t+1` surviving shares is still `s`. -/
theorem shareMove_preserves_secret {F : Type} [Field F] [DecidableEq F]
    (t : ℕ) (s : F) (idn : List (ℕ × F)) (y : ℕ → F) (stm : List (ℕ × ℕ))
    (selfId : ℕ) (m : List (ℕ × F))
    (hfst : (stm.map Prod.fst).Nodup)
    (hchk : ShareMove.checkSharesToMove selfId stm (some idn) = Except.ok ())
    (hmove : ShareMove.moveIdNumbers stm idn = some m)
    (hinit : ∀ L : List ℕ, L.Nodup → L.length = t + 1 →
      (∀ n ∈ L, n ∈ idn.map Prod.fst) →
      Shamir.reconstruct (L.map (fun n => (Shamir.xCoord idn n, y n))) = s)
    (L : List ℕ) (hLnd : L.Nodup) (hLlen : L.length = t + 1)
    (hLmem : ∀ n ∈ L, Shamir.isNewHolder stm idn n) :
    Shamir.reconstruct (L.map (fun n =>
      (Shamir.xCoord m n, Shamir.newSecretShare stm y n))) = s := by
  obtain ⟨hne, hsnd, hsrctgt⟩ := (checkSharesToMove_ok_iff selfId stm (some idn)).mp hchk
  obtain ⟨hsrc, htgt⟩ := hsrctgt
  obtain ⟨m', hm', hA, hB, hC⟩ := moveIdNumbers_spec stm idn hsrc hsnd htgt hfst
  rw [hmove] at hm'
  injection hm' with hm2
  subst hm2
  have hpt : ∀ n ∈ L, (Shamir.xCoord m n, Shamir.newSecretShare stm y n) =
      ((fun k => (Shamir.xCoord idn k, y k)) ∘ Shamir.moveOrigin stm) n := by
    intro n hn
    cases hlk : alLookup n stm with
    | some src =>
      have hmem : (n, src) ∈ stm := alLookup_mem_of_isSome hlk
      have h1 : alLookup n m = alLookup src idn := hA (n, src) hmem
      simp [Shamir.xCoord, Shamir.newSecretShare, Shamir.moveOrigin, hlk, h1]
    | none =>
      have hn2 : n ∉ stm.map Prod.fst := (alLookup_eq_none_iff n stm).mp hlk
      have hsurv : n ∈ idn.map Prod.fst ∧ n ∉ stm.map Prod.snd := by
        cases hLmem n hn with
        | inl h => exact h
        | inr h => exact absurd h hn2
      have h1 : alLookup n m = alLookup n idn := hC n hn2 hsurv.2
      simp [Shamir.xCoord, Shamir.newSecretShare, Shamir.moveOrigin, hlk, h1]
  have hmaps : L.map (fun n => (Shamir.xCoord m n, Shamir.newSecretShare stm y n)) =
      (L.map (Shamir.moveOrigin stm)).map (fun n => (Shamir.xCoord idn n, y n)) := by
    rw [List.map_map]
    exact List.map_congr_left hpt
  rw [hmaps]
  apply hinit
  · apply List.Nodup.map_on ?_ hLnd
    intro n1 h1 n2 h2 heq
    cases hlk1 : alLookup n1 stm with
    | some s1 =>
      have hm1 : (n1, s1) ∈ stm := alLookup_mem_of_isSome hlk1
      cases hlk2 : alLookup n2 stm with
      | some s2 =>
        have hm2 : (n2, s2) ∈ stm := alLookup_mem_of_isSome hlk2
        have hs12 : s1 = s2 := by
          simpa [Shamir.moveOrigin, hlk1, hlk2] using heq
        have hpair : (n1, s1) = (n2, s2) :=
          List.inj_on_of_nodup_map hsnd hm1 hm2 (by simpa using hs12)
        exact congrArg Prod.fst hpair
      | none =>
        have hn2surv : n2 ∉ stm.map Prod.snd := by
          cases hLmem n2 h2 with
          | inl h => exact h.2
          | inr h => exact absurd h ((alLookup_eq_none_iff n2 stm).mp hlk2)
        have hs1n2 : s1 = n2 := by
          simpa [Shamir.moveOrigin, hlk1, hlk2] using heq
        have hmem : s1 ∈ stm.map Prod.snd := List.mem_map_of_mem Prod.snd hm1
        rw [hs1n2] at hmem
        exact absurd hmem hn2surv
    | none =>
      cases hlk2 : alLookup n2 stm with
      | some s2 =>
        have hm2 : (n2, s2) ∈ stm := alLookup_mem_of_isSome hlk2
        have hn1surv : n1 ∉ stm.map Prod.snd := by
          cases hLmem n1 h1 with
          | inl h => exact h.2
          | inr h => exact absurd h ((alLookup_eq_none_iff n1 stm).mp hlk1)
        have hs2n1 : n1 = s2 := by
          simpa [Shamir.moveOrigin, hlk1, hlk2] using heq
        have hmem : s2 ∈ stm.map Prod.snd := List.mem_map_of_mem Prod.snd hm2
        rw [← hs2n1] at hmem
        exact absurd hmem hn1surv
      | none =>
        simpa [Shamir.moveOrigin, hlk1, hlk2] using heq
  · rw [List.length_map]
    exact hLlen
  · intro k hk
    obtain ⟨n0, hn0, hk0⟩ := List.mem_map.mp hk
    subst hk0
    cases hlk : alLookup n0 stm with
    | some src =>
      have hmem : (n0, src) ∈ stm := alLookup_mem_of_isSome hlk
      simpa [Shamir.moveOrigin, hlk] using hsrc (n0, src) hmem
    | none =>
      have hn2 : n0 ∉ stm.map Prod.fst := (alLookup_eq_none_iff n0 stm).mp hlk
      cases hLmem n0 hn0 with
      | inl h => simpa [Shamir.moveOrigin, hlk] using h.1
      | inr h => exact absurd h hn2

instance : Fact (Nat.Prime 11) := ⟨by norm_num⟩

/-- Witness for C1: a 1-of-2 sharing of `s = 7` over `ZMod 11` with id
numbers `0 ↦ 1`, `1 ↦ 2`; node 1's share moves to node 5, and the moved
holder 5 still reconstructs 7. -/
theorem shareMove_preserves_secret_witness :
    Shamir.reconstruct ([5].map (fun n =>
      (Shamir.xCoord [(5, (2 : ZMod 11)), (0, 1)] n,
       Shamir.newSecretShare [(5, 1)] (fun _ => (7 : ZMod 11)) n))) = 7 :=
  shareMove_preserves_secret 0 7 [(0, (1 : ZMod 11)), (1, 2)] (fun _ => 7) [(5, 1)] 0
    [(5, 2), (0, 1)] (by decide) (by decide) (by decide)
    (by
      intro L hnd hlen hmem
      cases L with
      | nil => simp at hlen
      | cons a L2 =>
        cases L2 with
        | nil =>
          have ha := hmem a (List.mem_cons_self _ _)
          have ha2 : a = 0 ∨ a = 1 := by simpa using ha
          rcases ha2 with h | h <;> subst h <;> decide
        | cons b L3 => simp at hlen)
    [5] (by decide) (by decide)
    (by
      intro n hn
      have h5 : n = 5 := by simpa using hn
      subst h5
      exact Or.inr (by decide))
